import Mathlib

/-!
Knockout-tournament engine: a shallow embedding.

This file embeds the tournament engine of `src/App.jsx` (functions
`deepClone`, `sortByPopularityDesc`, `makeRound`, `deriveCursor`,
`buildTournament`, `fastForwardIfNeeded`, `applyPick`, `getTotalDone`)
as Lean definitions, and proves the specification's claims about them.

Modelling conventions:
* JS objects become structures; a field that some object shapes lack
  (read back as `undefined`) becomes an `Option` field that is `none`.
* `deepClone` (a JSON round-trip on plain data) is the identity on values.
* JS's stable `Array.prototype.sort` with comparator
  `(b?.popularity ?? 0) - (a?.popularity ?? 0)` is embedded as a stable
  insertion sort descending by the same key.
* A JS `TypeError` (reading a field of `undefined`, possible only when
  `applyPick` is fed a forged cursor) is modelled by `applyPick`
  returning `none`; every normal return path yields `some _`.
* The `while` loop of `fastForwardIfNeeded` runs at most
  `rounds.length + 1` iterations (each `continue` appends one freshly
  built round and advances `roundIndex` by one, and an iteration whose
  active round is freshly built, or out of range, always exits), so it
  is embedded with fuel `rounds.length + 2`, which is never exhausted.
-/

namespace Knockout

/-- An entrant (track): stable `id` plus its `popularity` score
(integer in `[0,100]`; an absent score is identified with `0`, matching
the `?? 0` reads in the source). Other display-only fields carry no
engine meaning and are omitted. -/
structure Entrant where
  id : String
  popularity : Nat
deriving DecidableEq, Repr

/-- The sort key of `sortByPopularityDesc`: `e?.popularity ?? 0`. -/
def popKey : Option Entrant → Nat
  | none => 0
  | some e => e.popularity

/-- Insert `x` into `l` before the first element whose key is `≤ key x`
(so descending order results, and among equal keys the earlier input
element stays first: this is exactly stable sorting). -/
def insertDescBy (key : α → Nat) (x : α) : List α → List α
  | [] => [x]
  | y :: ys => if key y ≤ key x then x :: y :: ys else y :: insertDescBy key x ys

/-- Stable insertion sort, descending by `key`: the embedding of JS's
stable `sort((a, b) => key b - key a)`. -/
def sortDescBy (key : α → Nat) : List α → List α
  | [] => []
  | x :: xs => insertDescBy key x (sortDescBy key xs)

/-- `sortByPopularityDesc(list)` from the source: a stable descending
sort by `popularity ?? 0` of a list that may hold falsy entries. It
does not remove the falsy entries. -/
def sortByPopularityDesc (list : List (Option Entrant)) : List (Option Entrant) :=
  sortDescBy popKey list

/-- `sortByPopularityDesc` specialised to the all-present lists it is
applied to inside `makeRound` (`alive` has been filtered already);
`sortByPopularityDesc_map_some` below proves the two agree. -/
def sortEntrants (l : List Entrant) : List Entrant :=
  sortDescBy Entrant.popularity l

/-- A match: slots `a`/`b`, the `winner` once decided, and the
display-only `id` string (absent on the qualifier and synthesized
final of a three-round). -/
structure Match where
  a : Option Entrant
  b : Option Entrant
  winner : Option Entrant
  id : Option String
deriving DecidableEq, Repr

/-- The `type` tag of a round: `"normal"`, `"three"` or `"done"`. -/
inductive RoundType where
  | normal
  | three
  | done
deriving DecidableEq, Repr

/-- A round object. JS rounds of different `type` carry different
fields; a field missing on a given shape is `none`/`[]` here, matching
the `undefined` reads of the source. `qmatch` is the source's `match`
field (a reserved word in Lean). -/
structure Round where
  type : RoundType
  entrants : List Entrant
  bye : Option Entrant
  matches' : List Match
  top : Option Entrant
  qmatch : Option Match
  final : Option Match
  winners : List Entrant
deriving DecidableEq, Repr

/-- `${x?.id}` as it appears inside the match-id template literal. -/
def slotId : Option Entrant → String
  | some e => e.id
  | none => "undefined"

/-- The match-building loop of `makeRound`:
`for (let i = 0; i < pool.length / 2; i++)` with real division, i.e.
`ceil(pool.length / 2)` iterations, pairing `pool[i]` with
`pool[pool.length - 1 - i]`. -/
def buildMatches (pool : List Entrant) : List Match :=
  (List.range ((pool.length + 1) / 2)).map fun i =>
    { a := pool[i]?
      b := pool[pool.length - 1 - i]?
      winner := none
      id := some ("m-" ++ slotId pool[i]? ++ "-" ++ slotId pool[pool.length - 1 - i]? ++ "-"
        ++ toString i) }

/-- `makeRound(entrants)` from the source: filter falsy entries, then
done-round (≤ 1 alive), the special three-entrant round, or a normal
round with an optional bye and fold-seeded matches. -/
def makeRound (entrants : List (Option Entrant)) : Round :=
  let alive := entrants.filterMap (fun x => x)
  if alive.length ≤ 1 then
    { type := .done, entrants := alive, bye := none, matches' := [],
      top := none, qmatch := none, final := none, winners := [] }
  else if alive.length = 3 then
    let sorted := sortEntrants alive
    { type := .three, entrants := sorted, bye := none, matches' := [],
      top := sorted.head?,
      qmatch := some { a := sorted[1]?, b := sorted[2]?, winner := none, id := none },
      final := none, winners := [] }
  else
    let sorted := sortEntrants alive
    let bye := if sorted.length % 2 = 1 then sorted.head? else none
    let pool := if sorted.length % 2 = 1 then sorted.tail else sorted
    { type := .normal, entrants := sorted, bye := bye, matches' := buildMatches pool,
      top := none, qmatch := none, final := none, winners := [] }

/-- The decision cursor: `{round, special: "three"}`,
`{round, special: "final"}`, or `{round, match: i}`. -/
inductive Cursor where
  | three (round : Nat)
  | final (round : Nat)
  | norm (round : Nat) (matchIdx : Nat)
deriving DecidableEq, Repr

/-- One history entry, as pushed by `applyPick`: the three shapes of
object pushed on the qualifier, the final, and a normal match. -/
inductive HistEntry where
  | threeH (round : Nat) (winnerId : String)
  | finalH (round : Nat) (winnerId : String)
  | matchH (round : Nat) (matchIdx : Nat) (winnerId : String)
deriving DecidableEq, Repr

/-- The tournament snapshot (aggregate root). -/
structure Tournament where
  roundIndex : Nat
  rounds : List Round
  cursor : Option Cursor
  champion : Option Entrant
  history : List HistEntry
deriving DecidableEq, Repr

/-- `deepClone` is a JSON round-trip; on the plain data the engine
handles it is the identity, and Lean values are immutable anyway. -/
def deepClone (t : Tournament) : Tournament := t

/-- JS `Array.prototype.findIndex`, with `-1` rendered as `none`. -/
def findIndex (p : Match → Bool) : List Match → Option Nat
  | [] => none
  | m :: ms => if p m then some 0 else (findIndex p ms).map (· + 1)

/-- `deriveCursor(tournament)` from the source. -/
def deriveCursor (t : Tournament) : Option Cursor :=
  match t.rounds[t.roundIndex]? with
  | none => none
  | some r =>
    match r.type with
    | .three =>
      if (r.qmatch.bind Match.winner).isNone then some (.three t.roundIndex)
      else
        match r.final with
        | some f => if f.winner.isNone then some (.final t.roundIndex) else none
        | none => none
    | .normal =>
      match findIndex (fun m => m.winner.isNone && m.a.isSome && m.b.isSome) r.matches' with
      | some i => some (.norm t.roundIndex i)
      | none => none
    | .done => none

/-- `winners` collection of a completed normal round:
`matches.map(m => m.winner).filter(Boolean)` plus the bye if present. -/
def winnersOf (r : Round) : List Entrant :=
  r.matches'.filterMap Match.winner ++ (match r.bye with | some e => [e] | none => [])

/-- The body of the `while (!t.champion)` loop of
`fastForwardIfNeeded`, with explicit fuel (see the header comment: the
fuel chosen in `fastForwardIfNeeded` is never exhausted). -/
def ffLoop : Nat → Tournament → Tournament
  | 0, t => t
  | fuel + 1, t =>
    if t.champion.isSome then t
    else
      let t₁ := { t with cursor := deriveCursor t }
      match t₁.rounds[t₁.roundIndex]? with
      | none => t₁
      | some round =>
        if t₁.cursor.isSome then t₁
        else
          match round.type with
          | .normal =>
            if round.matches'.all (fun m => m.winner.isSome) then
              let winners := winnersOf round
              if winners.length = 1 then { t₁ with champion := winners.head? }
              else
                ffLoop fuel
                  { t₁ with roundIndex := t₁.roundIndex + 1,
                            rounds := t₁.rounds ++ [makeRound (winners.map some)] }
            else t₁
          | .three => t₁
          | .done =>
            if round.entrants.length = 1 then { t₁ with champion := round.entrants.head? }
            else t₁

/-- `fastForwardIfNeeded(tournament)` from the source: clone, run the
auto-advance loop, recompute the cursor, return. -/
def fastForwardIfNeeded (tournament : Tournament) : Tournament :=
  let t := deepClone tournament
  let t' := ffLoop (t.rounds.length + 2) t
  { t' with cursor := deriveCursor t' }

/-- `buildTournament(tracks)` from the source. -/
def buildTournament (tracks : List (Option Entrant)) : Tournament :=
  let first := makeRound tracks
  let t : Tournament :=
    { roundIndex := 0, rounds := [first], cursor := none, champion := none, history := [] }
  fastForwardIfNeeded { t with cursor := deriveCursor t }

/-- The picked side: `'a'` or `'b'`. -/
inductive Side where
  | a
  | b
deriving DecidableEq, Repr

/-- `pickedSide === "a" ? m.a : m.b`. -/
def sideSlot (m : Match) : Side → Option Entrant
  | .a => m.a
  | .b => m.b

/-- `applyPick(tournament, pickedSide)` from the source. `none` models
the `TypeError` the JS code throws when the cursor names a match object
that does not exist (`round.match`/`round.final` undefined, or a
matches index out of range); all other paths return `some _`. -/
def applyPick (tournament : Tournament) (pickedSide : Side) : Option Tournament :=
  let t := deepClone tournament
  match t.cursor with
  | none => some t
  | some cur =>
    match t.rounds[t.roundIndex]? with
    | none => some t
    | some round =>
      match cur with
      | .three _ =>
        match round.qmatch with
        | none => none
        | some m =>
          match sideSlot m pickedSide with
          | none => some t
          | some winner =>
            let round' := { round with
              qmatch := some { m with winner := some winner },
              final := some { a := round.top, b := some winner, winner := none, id := none } }
            let t' := { t with
              rounds := t.rounds.set t.roundIndex round',
              history := t.history ++ [HistEntry.threeH t.roundIndex winner.id] }
            some { t' with cursor := deriveCursor t' }
      | .final _ =>
        match round.final with
        | none => none
        | some m =>
          match sideSlot m pickedSide with
          | none => some t
          | some winner =>
            let round' := { round with final := some { m with winner := some winner } }
            some { t with
              rounds := t.rounds.set t.roundIndex round',
              history := t.history ++ [HistEntry.finalH t.roundIndex winner.id],
              champion := some winner,
              cursor := none }
      | .norm _ idx =>
        match round.matches'[idx]? with
        | none => none
        | some m =>
          match sideSlot m pickedSide with
          | none => some t
          | some winner =>
            let ms' := round.matches'.set idx { m with winner := some winner }
            let round' := { round with matches' := ms' }
            let t₁ := { t with
              rounds := t.rounds.set t.roundIndex round',
              history := t.history ++ [HistEntry.matchH t.roundIndex idx winner.id] }
            if ms'.all (fun x => x.winner.isSome) then
              let winners := winnersOf round'
              if winners.length = 1 then
                some { t₁ with champion := winners.head?, cursor := none }
              else
                let t₂ := { t₁ with
                  roundIndex := t₁.roundIndex + 1,
                  rounds := t₁.rounds ++ [makeRound (winners.map some)] }
                some (fastForwardIfNeeded { t₂ with cursor := deriveCursor t₂ })
            else
              some { t₁ with cursor := deriveCursor t₁ }

/-- `getTotalDone(tournament)` from the source, as the pair
`(total, done)`. -/
def getTotalDone (t : Tournament) : Nat × Nat :=
  t.rounds.foldl
    (fun acc r =>
      match r.type with
      | .normal =>
        (acc.1 + r.matches'.length, acc.2 + (r.matches'.filter (fun m => m.winner.isSome)).length)
      | .three =>
        (acc.1 + 2,
         acc.2 + (if (r.qmatch.bind Match.winner).isSome then 1 else 0)
               + (if (r.final.bind Match.winner).isSome then 1 else 0))
      | .done => acc)
    (0, 0)

/-! ## Derived notions used to state the claims -/

/-- Total decision slots one round contributes to `totals`, following
the spec's words: a normal round contributes `matches.length`, a three
round a fixed `2` (whether or not `final` exists yet), a done round
nothing. -/
def roundSlots (r : Round) : Nat :=
  match r.type with
  | .normal => r.matches'.length
  | .three => 2
  | .done => 0

/-- Decided slots one round contributes to `totals`, following the
spec's words: decided matches of a normal round, and one each for a
decided qualifier / decided final of a three round. -/
def roundDecided (r : Round) : Nat :=
  match r.type with
  | .normal => (r.matches'.filter (fun m => m.winner.isSome)).length
  | .three =>
    (if (r.qmatch.bind Match.winner).isSome then 1 else 0)
      + (if (r.final.bind Match.winner).isSome then 1 else 0)
  | .done => 0

/-- `totals` as the spec describes it: sum the per-round contributions
across all rounds. (`getTotalDone` is proved to coincide with this.) -/
def totalsSpec (t : Tournament) : Nat × Nat :=
  ((t.rounds.map roundSlots).sum, (t.rounds.map roundDecided).sum)

/-- The pairing pool of a normal round, as the spec words it: the
ranked survivors, minus the leading bye when the survivor count is
odd. -/
def foldPool (l : List Entrant) : List Entrant :=
  if l.length % 2 = 1 then (sortEntrants l).tail else sortEntrants l

/-- The match object a cursor points at inside a round: the qualifier,
the synthesized final, or `matches[i]` — exactly the lookup `applyPick`
performs for each cursor shape. -/
def cursorMatchOf (r : Round) : Cursor → Option Match
  | .three _ => r.qmatch
  | .final _ => r.final
  | .norm _ i => r.matches'[i]?

/-- The round update `applyPick` performs at the qualifier stage: set
the qualifier winner and synthesize the final `(top vs winner)`. -/
def qualDecided (r : Round) (q : Match) (w : Entrant) : Round :=
  { r with qmatch := some { q with winner := some w },
           final := some { a := r.top, b := some w, winner := none, id := none } }

/-- The round update `applyPick` performs at the final stage: set the
final's winner. -/
def finalDecided (r : Round) (f : Match) (w : Entrant) : Round :=
  { r with final := some { f with winner := some w } }

/-- The round update `applyPick` performs on a normal match: set match
`i`'s winner. -/
def matchDecided (r : Round) (i : Nat) (m : Match) (w : Entrant) : Round :=
  { r with matches' := r.matches'.set i { m with winner := some w } }

/-- Survivors a match still keeps alive: both entrants while
undecided, only the winner once decided. -/
def matchLive (m : Match) : Nat :=
  if m.winner.isSome then 1 else 2

/-- Survivors the active round still keeps alive. For a normal round:
each match's live count plus the bye. For a three round: 3 before the
qualifier is decided, 2 before the final is decided, 1 after. For a
done round: its entrant list. -/
def roundAlive (r : Round) : Nat :=
  match r.type with
  | .done => r.entrants.length
  | .normal => (r.matches'.map matchLive).sum + (if r.bye.isSome then 1 else 0)
  | .three =>
    match r.final with
    | some f => if f.winner.isSome then 1 else 2
    | none => if (r.qmatch.bind Match.winner).isSome then 2 else 3

/-- Survivors still alive in the tournament's active round. -/
def tAlive (t : Tournament) : Nat :=
  match t.rounds[t.roundIndex]? with
  | some r => roundAlive r
  | none => 0

/-- The tournament is complete: a sole survivor remains. -/
def isComplete (t : Tournament) : Prop :=
  tAlive t = 1

/-- Structural health of the active round on reachable states (with no
champion yet): a done round is the empty idle round; a normal round has
a nonempty match list, every slot filled, and at least one undecided
match; a three round has its qualifier filled and its final synthesized
(pairing `top` against the qualifier winner, undecided) exactly when
the qualifier is decided. -/
def GoodRound (r : Round) : Prop :=
  match r.type with
  | .done => r.entrants = []
  | .normal =>
      r.matches' ≠ [] ∧ (∀ m ∈ r.matches', m.a.isSome ∧ m.b.isSome) ∧
        ¬ (∀ m ∈ r.matches', m.winner.isSome)
  | .three =>
      ∃ q, r.qmatch = some q ∧ q.a.isSome ∧ q.b.isSome ∧ r.top.isSome ∧
        ((q.winner = none ∧ r.final = none) ∨
          (∃ w f, q.winner = some w ∧ r.final = some f ∧ f.a = r.top ∧ f.b = some w ∧
            f.winner = none))

/-- The state invariant of settled tournaments: the active round is the
last round and exists; the stored cursor agrees with `deriveCursor`;
with a champion the cursor is `null` and exactly one survivor remains,
without one the active round is structurally healthy. -/
def Inv (t : Tournament) : Prop :=
  t.roundIndex + 1 = t.rounds.length ∧
  ∃ r, t.rounds[t.roundIndex]? = some r ∧
    t.cursor = deriveCursor t ∧
    ((∃ c, t.champion = some c ∧ t.cursor = none ∧ roundAlive r = 1) ∨
      (t.champion = none ∧ GoodRound r))

/-- Tournaments reachable through the engine's public transitions. -/
inductive Reachable : Tournament → Prop
  | build (l : List (Option Entrant)) : Reachable (buildTournament l)
  | pick {t t' : Tournament} (s : Side) : Reachable t → applyPick t s = some t' →
      Reachable t'
  | settle {t : Tournament} : Reachable t → Reachable (fastForwardIfNeeded t)

/-- An external operation against a snapshot: one pick or one
fast-forward. -/
inductive Op where
  | pick (s : Side)
  | settle
deriving DecidableEq, Repr

/-- Run a sequence of operations, propagating the crash of a forged
pick. -/
def runOps (t : Tournament) : List Op → Option Tournament
  | [] => some t
  | Op.pick s :: ops =>
    match applyPick t s with
    | none => none
    | some t' => runOps t' ops
  | Op.settle :: ops => runOps (fastForwardIfNeeded t) ops

/-- Run a sequence of picks (one side choice per pending decision). -/
def runPicks (t : Tournament) : List Side → Option Tournament
  | [] => some t
  | s :: ss =>
    match applyPick t s with
    | none => none
    | some t' => runPicks t' ss

/-! ## Lemmas about the stable descending sort -/

theorem mem_insertDescBy {key : α → Nat} {x z : α} {l : List α} :
    z ∈ insertDescBy key x l ↔ z = x ∨ z ∈ l := by
  induction l with
  | nil => simp [insertDescBy]
  | cons y ys ih =>
    simp only [insertDescBy]
    split
    · simp [List.mem_cons]
    · simp only [List.mem_cons, ih]
      tauto

theorem insertDescBy_perm (key : α → Nat) (x : α) (l : List α) :
    List.Perm (insertDescBy key x l) (x :: l) := by
  induction l with
  | nil => simp [insertDescBy]
  | cons y ys ih =>
    simp only [insertDescBy]
    split
    · exact List.Perm.refl _
    · exact (ih.cons y).trans (List.Perm.swap x y ys)

theorem sortDescBy_perm (key : α → Nat) (l : List α) : List.Perm (sortDescBy key l) l := by
  induction l with
  | nil => exact List.Perm.refl _
  | cons x xs ih =>
    simp only [sortDescBy]
    exact (insertDescBy_perm key x _).trans (ih.cons x)

theorem sortDescBy_length (key : α → Nat) (l : List α) :
    (sortDescBy key l).length = l.length :=
  (sortDescBy_perm key l).length_eq

theorem pairwise_insertDescBy {key : α → Nat} {x : α} {l : List α}
    (h : List.Pairwise (fun a b => key b ≤ key a) l) :
    List.Pairwise (fun a b => key b ≤ key a) (insertDescBy key x l) := by
  induction l with
  | nil => simp [insertDescBy]
  | cons y ys ih =>
    rcases List.pairwise_cons.mp h with ⟨hy, hys⟩
    simp only [insertDescBy]
    split
    · rename_i hle
      refine List.pairwise_cons.mpr ⟨?_, h⟩
      intro z hz
      rcases List.mem_cons.mp hz with rfl | hz
      · exact hle
      · exact le_trans (hy z hz) hle
    · rename_i hgt
      refine List.pairwise_cons.mpr ⟨?_, ih hys⟩
      intro z hz
      rcases mem_insertDescBy.mp hz with rfl | hz
      · exact le_of_not_le hgt
      · exact hy z hz

theorem sortDescBy_sorted (key : α → Nat) (l : List α) :
    List.Pairwise (fun a b => key b ≤ key a) (sortDescBy key l) := by
  induction l with
  | nil => simp [sortDescBy]
  | cons x xs ih =>
    simp only [sortDescBy]
    exact pairwise_insertDescBy ih

theorem filter_insertDescBy (key : α → Nat) (x : α) (l : List α) (k : Nat) :
    (insertDescBy key x l).filter (fun z => key z == k) =
      if key x == k then x :: l.filter (fun z => key z == k)
      else l.filter (fun z => key z == k) := by
  induction l with
  | nil =>
    simp only [insertDescBy, List.filter]
    split <;> rename_i h <;> simp [h]
  | cons y ys ih =>
    simp only [insertDescBy]
    split
    · by_cases hx : (key x == k) = true <;> simp [List.filter_cons, hx]
    · rename_i hgt
      have hxy : key x < key y := Nat.lt_of_not_le hgt
      by_cases hx : (key x == k) = true
      · have hk : key x = k := by simpa using hx
        have hyk : key y ≠ k := by omega
        have hy : (key y == k) = false := by
          simp only [beq_eq_false_iff_ne, ne_eq]
          exact hyk
        simp [List.filter_cons, hy, ih, hx]
      · simp [List.filter_cons, ih, hx]

theorem sortDescBy_stable (key : α → Nat) (l : List α) (k : Nat) :
    (sortDescBy key l).filter (fun z => key z == k) = l.filter (fun z => key z == k) := by
  induction l with
  | nil => rfl
  | cons x xs ih =>
    simp only [sortDescBy]
    rw [filter_insertDescBy]
    by_cases hx : (key x == k) = true <;> simp [List.filter_cons, hx, ih]

theorem insertDescBy_map_some (x : Entrant) (l : List Entrant) :
    insertDescBy popKey (some x) (l.map some) = (insertDescBy Entrant.popularity x l).map some := by
  induction l with
  | nil => rfl
  | cons y ys ih =>
    simp only [List.map_cons, insertDescBy, popKey]
    split <;> simp [ih]

/-- Coherence of the specialised sort used inside `makeRound` with the
source's `sortByPopularityDesc`: on an all-present list they agree. -/
theorem sortByPopularityDesc_map_some (l : List Entrant) :
    sortByPopularityDesc (l.map some) = (sortEntrants l).map some := by
  induction l with
  | nil => rfl
  | cons x xs ih =>
    simp only [sortByPopularityDesc, sortEntrants, sortDescBy, List.map_cons] at *
    rw [ih, insertDescBy_map_some]

/-- Claim C7, counterexample: `sortByPopularityDesc` does *not* remove
falsy entries: on `[null, x]` it returns `[x, null]` (the null entry is
kept, sorted as popularity 0), not `[x]` as the claim's removal clause
would require. -/
theorem c7_rank_keeps_falsy_counterexample :
    sortByPopularityDesc [none, some ⟨"x", 50⟩] = [some ⟨"x", 50⟩, none] ∧
      ([some ⟨"x", 50⟩, none] : List (Option Entrant)) ≠ [some ⟨"x", 50⟩] := by
  constructor
  · rfl
  · intro h
    simpa using congrArg List.length h

/-- Claim C7, amended: `sortByPopularityDesc` returns a new sequence
ordered by popularity descending (falsy entries counted as popularity
0); entries with equal popularity keep their relative input order
(stability: for every key value the filtered subsequence is unchanged);
the output is a permutation of the input — falsy entries are kept, not
removed (removal happens later, in `makeRound`'s filter); and it is
total for any input including the empty list. -/
theorem c7_rank_sorted_stable (l : List (Option Entrant)) :
    List.Pairwise (fun x y => popKey y ≤ popKey x) (sortByPopularityDesc l) ∧
      (∀ k : Nat, (sortByPopularityDesc l).filter (fun o => popKey o == k)
        = l.filter (fun o => popKey o == k)) ∧
      List.Perm (sortByPopularityDesc l) l ∧
      sortByPopularityDesc ([] : List (Option Entrant)) = [] :=
  ⟨sortDescBy_sorted popKey l, fun k => sortDescBy_stable popKey l k,
    sortDescBy_perm popKey l, rfl⟩

/-! ## Totals -/

theorem getTotalDone_foldl (rs : List Round) (p : Nat × Nat) :
    rs.foldl
      (fun acc r =>
        match r.type with
        | .normal =>
          (acc.1 + r.matches'.length,
           acc.2 + (r.matches'.filter (fun m => m.winner.isSome)).length)
        | .three =>
          (acc.1 + 2,
           acc.2 + (if (r.qmatch.bind Match.winner).isSome then 1 else 0)
                 + (if (r.final.bind Match.winner).isSome then 1 else 0))
        | .done => acc) p
      = (p.1 + (rs.map roundSlots).sum, p.2 + (rs.map roundDecided).sum) := by
  induction rs generalizing p with
  | nil => simp
  | cons r rs ih =>
    simp only [List.foldl_cons, List.map_cons, List.sum_cons, ih]
    cases htype : r.type <;>
      simp only [htype, roundSlots, roundDecided] <;>
      refine Prod.ext ?_ ?_ <;> simp <;> omega

/-- Claim C9: `getTotalDone` computes exactly the spec's per-round sums:
normal rounds contribute `matches.length` total and their decided count;
three rounds contribute a fixed 2 total — even while `final` is still
structurally absent — and one done point for each of qualifier/final
that is decided; done rounds contribute nothing. In particular a
tournament in its three-entrant stage with `final` not yet synthesized
reports total 2 with done 0 or 1. -/
theorem c9_totals_fixed_three_denominator :
    (∀ t : Tournament, getTotalDone t = totalsSpec t) ∧
      (∀ (t : Tournament) (r : Round), t.rounds = [r] → r.type = .three → r.final = none →
        getTotalDone t
            = (2, if (r.qmatch.bind Match.winner).isSome then 1 else 0) ∧
          (getTotalDone t).2 ≤ 1) := by
  have key : ∀ t : Tournament, getTotalDone t = totalsSpec t := by
    intro t
    unfold getTotalDone totalsSpec
    rw [getTotalDone_foldl]
    simp
  refine ⟨key, ?_⟩
  intro t r hrounds htype hfinal
  rw [key, totalsSpec, hrounds]
  simp only [List.map_cons, List.map_nil, List.sum_cons, List.sum_nil, roundSlots,
    roundDecided, htype, hfinal]
  constructor
  · simp
  · split <;> simp

/-- Witness for C9: a concrete tournament frozen in its
three-entrant stage before the final exists (qualifier undecided)
reports totals `(2, 0)`. -/
theorem c9_totals_witness :
    getTotalDone
        { roundIndex := 0,
          rounds := [{ type := .three, entrants := [⟨"a", 90⟩, ⟨"b", 60⟩, ⟨"c", 40⟩],
                       bye := none, matches' := [],
                       top := some ⟨"a", 90⟩,
                       qmatch := some { a := some ⟨"b", 60⟩, b := some ⟨"c", 40⟩,
                                        winner := none, id := none },
                       final := none, winners := [] }],
          cursor := some (.three 0), champion := none, history := [] }
      = (2, 0) := by
  let r : Round :=
    { type := .three, entrants := [⟨"a", 90⟩, ⟨"b", 60⟩, ⟨"c", 40⟩],
      bye := none, matches' := [],
      top := some ⟨"a", 90⟩,
      qmatch := some { a := some ⟨"b", 60⟩, b := some ⟨"c", 40⟩, winner := none, id := none },
      final := none, winners := [] }
  exact (c9_totals_fixed_three_denominator.2
    { roundIndex := 0, rounds := [r], cursor := some (.three 0), champion := none,
      history := [] } r rfl rfl rfl).1

/-! ## Degenerate entrant lists -/

/-- Claim C8: A tournament built from one entrant settles immediately:
that entrant is champion, the single round is the done round holding
it, and the history is empty (zero decisions). A tournament built from
zero entrants is the terminal idle state: a done round with an empty
entrant list, no champion, and every sequence of operations (picks and
fast-forwards) returns it unchanged, so no champion is ever set. -/
theorem c8_single_and_empty_entrants :
    (∀ e : Entrant,
      buildTournament [some e]
        = { roundIndex := 0,
            rounds := [{ type := .done, entrants := [e], bye := none, matches' := [],
                         top := none, qmatch := none, final := none, winners := [] }],
            cursor := none, champion := some e, history := [] }) ∧
    buildTournament ([] : List (Option Entrant))
        = { roundIndex := 0,
            rounds := [{ type := .done, entrants := [], bye := none, matches' := [],
                         top := none, qmatch := none, final := none, winners := [] }],
            cursor := none, champion := none, history := [] } ∧
    (∀ ops : List Op,
      runOps (buildTournament ([] : List (Option Entrant))) ops
        = some (buildTournament ([] : List (Option Entrant)))) := by
  have hpick : ∀ s : Side,
      applyPick (buildTournament ([] : List (Option Entrant))) s
        = some (buildTournament ([] : List (Option Entrant))) := fun _ => rfl
  have hsettle :
      fastForwardIfNeeded (buildTournament ([] : List (Option Entrant)))
        = buildTournament ([] : List (Option Entrant)) := rfl
  refine ⟨fun e => rfl, rfl, ?_⟩
  intro ops
  induction ops with
  | nil => rfl
  | cons op ops ih =>
    cases op with
    | pick s => simp only [runOps, hpick s]; exact ih
    | settle => simp only [runOps, hsettle]; exact ih

/-! ## Silent no-ops of `applyPick` -/

/-- Claim C5: `applyPick` is a silent no-op — it returns the snapshot
unchanged (`some t`: same rounds, roundIndex, cursor, champion and
history, and no exception) — whenever the stored cursor is `null`, and
whenever the match the cursor points at has an absent entrant in the
slot named by the pick. -/
theorem c5_invalid_pick_noop (t : Tournament) (side : Side) :
    (t.cursor = none → applyPick t side = some t) ∧
    (∀ (c : Cursor) (r : Round) (m : Match),
      t.cursor = some c → t.rounds[t.roundIndex]? = some r →
      cursorMatchOf r c = some m → sideSlot m side = none →
      applyPick t side = some t) := by
  constructor
  · intro h
    simp only [applyPick, deepClone, h]
  · intro c r m hc hr hm hs
    cases c with
    | three j =>
      simp only [cursorMatchOf] at hm
      simp only [applyPick, deepClone, hc, hr, hm, hs]
    | final j =>
      simp only [cursorMatchOf] at hm
      simp only [applyPick, deepClone, hc, hr, hm, hs]
    | norm j i =>
      simp only [cursorMatchOf] at hm
      simp only [applyPick, deepClone, hc, hr, hm, hs]

/-- Witness for C5: a settled tournament with `cursor = null`
(the empty tournament) is returned unchanged, and so is a tournament
whose cursor points at a match whose `a` slot is absent. -/
theorem c5_invalid_pick_noop_witness :
    ((buildTournament ([] : List (Option Entrant))).cursor = none ∧
      applyPick (buildTournament ([] : List (Option Entrant))) Side.a
        = some (buildTournament ([] : List (Option Entrant)))) ∧
    (({ roundIndex := 0,
        rounds := [{ type := .normal, entrants := [], bye := none,
                     matches' := [{ a := none, b := some ⟨"y", 1⟩, winner := none, id := none }],
                     top := none, qmatch := none, final := none, winners := [] }],
        cursor := some (.norm 0 0), champion := none,
        history := [] } : Tournament).cursor = some (.norm 0 0) ∧
      applyPick
        { roundIndex := 0,
          rounds := [{ type := .normal, entrants := [], bye := none,
                       matches' := [{ a := none, b := some ⟨"y", 1⟩, winner := none, id := none }],
                       top := none, qmatch := none, final := none, winners := [] }],
          cursor := some (.norm 0 0), champion := none,
          history := [] } Side.a
        = some
          { roundIndex := 0,
            rounds := [{ type := .normal, entrants := [], bye := none,
                         matches' := [{ a := none, b := some ⟨"y", 1⟩, winner := none,
                                        id := none }],
                         top := none, qmatch := none, final := none, winners := [] }],
            cursor := some (.norm 0 0), champion := none,
            history := [] }) := by
  refine ⟨⟨rfl, (c5_invalid_pick_noop _ Side.a).1 rfl⟩, ⟨rfl, ?_⟩⟩
  exact (c5_invalid_pick_noop _ Side.a).2 (.norm 0 0)
    { type := .normal, entrants := [], bye := none,
      matches' := [{ a := none, b := some ⟨"y", 1⟩, winner := none, id := none }],
      top := none, qmatch := none, final := none, winners := [] }
    { a := none, b := some ⟨"y", 1⟩, winner := none, id := none }
    rfl rfl rfl rfl

/-! ## Normal round construction -/

theorem filterMap_map_some (l : List Entrant) : (l.map some).filterMap (fun x => x) = l := by
  induction l with
  | nil => rfl
  | cons x xs ih => simp [ih]

theorem buildMatches_length (pool : List Entrant) :
    (buildMatches pool).length = (pool.length + 1) / 2 := by
  simp [buildMatches]

theorem buildMatches_getElem? (pool : List Entrant) (i : Nat) (hi : i < (pool.length + 1) / 2) :
    (buildMatches pool)[i]?
      = some
        { a := pool[i]?, b := pool[pool.length - 1 - i]?, winner := none,
          id := some ("m-" ++ slotId pool[i]? ++ "-" ++ slotId pool[pool.length - 1 - i]? ++ "-"
            ++ toString i) } := by
  simp [buildMatches, hi]

/-- The shape `makeRound` produces on at-least-2-but-not-3 present
survivors. -/
theorem makeRound_normal (l : List Entrant) (h2 : 2 ≤ l.length) (h3 : l.length ≠ 3) :
    makeRound (l.map some)
      = { type := .normal, entrants := sortEntrants l,
          bye := if l.length % 2 = 1 then (sortEntrants l).head? else none,
          matches' := buildMatches (foldPool l),
          top := none, qmatch := none, final := none, winners := [] } := by
  have hlen : (sortEntrants l).length = l.length := sortDescBy_length _ _
  simp only [makeRound, filterMap_map_some, foldPool, hlen]
  rw [if_neg (by omega), if_neg h3]

/-- Claim C2: On a survivor list with at least 2 present entrants and not
exactly 3, `makeRound` builds a normal round: survivors sorted by
popularity descending; when the count is odd the top-ranked survivor is
the bye and the pool is the rest, otherwise no bye and the pool is the
whole ranking; `ceil(pool.length/2)` fold-seeded matches pairing
`pool[i]` with `pool[len−1−i]`, all winners unset. The spec's 5-entrant
example comes out as stated: bye = 90, matches (80 vs 50) and
(70 vs 60). -/
theorem c2_normal_round_fold_seeding (l : List Entrant) (h2 : 2 ≤ l.length)
    (h3 : l.length ≠ 3) :
    (makeRound (l.map some)).type = .normal ∧
    (makeRound (l.map some)).entrants = sortEntrants l ∧
    List.Pairwise (fun a b => b.popularity ≤ a.popularity) (makeRound (l.map some)).entrants ∧
    (makeRound (l.map some)).bye
      = (if l.length % 2 = 1 then (sortEntrants l).head? else none) ∧
    (makeRound (l.map some)).matches'.length = ((foldPool l).length + 1) / 2 ∧
    (∀ i, i < (makeRound (l.map some)).matches'.length →
      ∃ m, (makeRound (l.map some)).matches'[i]? = some m ∧
        m.a = (foldPool l)[i]? ∧ m.b = (foldPool l)[(foldPool l).length - 1 - i]? ∧
        m.winner = none) ∧
    makeRound
        [some ⟨"a", 90⟩, some ⟨"b", 80⟩, some ⟨"c", 70⟩, some ⟨"d", 60⟩, some ⟨"e", 50⟩]
      = { type := .normal,
          entrants := [⟨"a", 90⟩, ⟨"b", 80⟩, ⟨"c", 70⟩, ⟨"d", 60⟩, ⟨"e", 50⟩],
          bye := some ⟨"a", 90⟩,
          matches' :=
            [{ a := some ⟨"b", 80⟩, b := some ⟨"e", 50⟩, winner := none,
               id := some "m-b-e-0" },
             { a := some ⟨"c", 70⟩, b := some ⟨"d", 60⟩, winner := none,
               id := some "m-c-d-1" }],
          top := none, qmatch := none, final := none, winners := [] } := by
  rw [makeRound_normal l h2 h3]
  refine ⟨rfl, rfl, sortDescBy_sorted Entrant.popularity l, rfl, buildMatches_length _, ?_, ?_⟩
  · intro i hi
    rw [buildMatches_length] at hi
    exact ⟨_, buildMatches_getElem? _ i hi, rfl, rfl, rfl⟩
  · rfl

/-- Witness for C2: the spec's 4-entrant example, popularity
[90,70,50,30]: no bye, matches (90 vs 30) and (70 vs 50). -/
theorem c2_normal_round_fold_seeding_witness :
    (2 ≤ ([⟨"p", 90⟩, ⟨"q", 70⟩, ⟨"r", 50⟩, ⟨"s", 30⟩] : List Entrant).length ∧
      ([⟨"p", 90⟩, ⟨"q", 70⟩, ⟨"r", 50⟩, ⟨"s", 30⟩] : List Entrant).length ≠ 3) ∧
    ((makeRound (([⟨"p", 90⟩, ⟨"q", 70⟩, ⟨"r", 50⟩, ⟨"s", 30⟩] : List Entrant).map some)).type
        = .normal ∧
      (makeRound (([⟨"p", 90⟩, ⟨"q", 70⟩, ⟨"r", 50⟩, ⟨"s", 30⟩] : List Entrant).map some)).bye
        = none ∧
      makeRound (([⟨"p", 90⟩, ⟨"q", 70⟩, ⟨"r", 50⟩, ⟨"s", 30⟩] : List Entrant).map some)
        = { type := .normal,
            entrants := [⟨"p", 90⟩, ⟨"q", 70⟩, ⟨"r", 50⟩, ⟨"s", 30⟩],
            bye := none,
            matches' :=
              [{ a := some ⟨"p", 90⟩, b := some ⟨"s", 30⟩, winner := none,
                 id := some "m-p-s-0" },
               { a := some ⟨"q", 70⟩, b := some ⟨"r", 50⟩, winner := none,
                 id := some "m-q-r-1" }],
            top := none, qmatch := none, final := none, winners := [] }) := by
  have h := c2_normal_round_fold_seeding [⟨"p", 90⟩, ⟨"q", 70⟩, ⟨"r", 50⟩, ⟨"s", 30⟩]
    (by decide) (by decide)
  exact ⟨⟨by decide, by decide⟩, h.1, by rw [h.2.2.2.1]; rfl, rfl⟩

/-! ## The three-entrant endgame -/

/-- `deriveCursor` only reads `rounds` and `roundIndex`, so rewriting
the stored cursor does not change it. -/
theorem deriveCursor_set_cursor (t : Tournament) (c : Option Cursor) :
    deriveCursor { t with cursor := c } = deriveCursor t := rfl

/-- If the tournament has no champion and its derived cursor is
non-null, one iteration of the fast-forward loop stops immediately,
only refreshing the stored cursor. -/
theorem ffLoop_stop_pending (fuel : Nat) (t : Tournament) (hch : t.champion = none)
    (h : (deriveCursor t).isSome) :
    ffLoop (fuel + 1) t = { t with cursor := deriveCursor t } := by
  obtain ⟨r, hr⟩ : ∃ r, t.rounds[t.roundIndex]? = some r := by
    unfold deriveCursor at h
    cases hrr : t.rounds[t.roundIndex]? with
    | none => rw [hrr] at h; simp at h
    | some r => exact ⟨r, rfl⟩
  simp only [ffLoop, hch, Option.isSome_none, Bool.false_eq_true, if_false, hr, h, if_true]

/-- When the active round still holds a pending decision (and no
champion is set), `settle` only refreshes the stored cursor. -/
theorem fastForward_of_cursor_isSome (t : Tournament) (hch : t.champion = none)
    (h : (deriveCursor t).isSome) :
    fastForwardIfNeeded t = { t with cursor := deriveCursor t } := by
  show (let t' := ffLoop (t.rounds.length + 2) t; { t' with cursor := deriveCursor t' }) = _
  have hloop : ffLoop (t.rounds.length + 2) t = { t with cursor := deriveCursor t } :=
    ffLoop_stop_pending (t.rounds.length + 1) t hch h
  simp only [hloop, deriveCursor_set_cursor]

/-- The shape `makeRound` produces on exactly 3 present survivors. -/
theorem makeRound_three (l : List Entrant) (h3 : l.length = 3) :
    makeRound (l.map some)
      = { type := .three, entrants := sortEntrants l, bye := none, matches' := [],
          top := (sortEntrants l).head?,
          qmatch := some { a := (sortEntrants l)[1]?, b := (sortEntrants l)[2]?,
                           winner := none, id := none },
          final := none, winners := [] } := by
  simp only [makeRound, filterMap_map_some, h3]
  rfl

/-- Building from 3 present entrants settles into the fresh three
round with the cursor on the qualifier. -/
theorem buildTournament_three (l : List Entrant) (h3 : l.length = 3) :
    buildTournament (l.map some)
      = { roundIndex := 0, rounds := [makeRound (l.map some)],
          cursor := some (.three 0), champion := none, history := [] } := by
  have hcur : ∀ c : Option Cursor, deriveCursor
      { roundIndex := 0, rounds := [makeRound (l.map some)], cursor := c,
        champion := none, history := [] } = some (.three 0) := by
    intro c
    rw [makeRound_three l h3]
    rfl
  show fastForwardIfNeeded
      { roundIndex := 0, rounds := [makeRound (l.map some)],
        cursor := deriveCursor
          { roundIndex := 0, rounds := [makeRound (l.map some)], cursor := none,
            champion := none, history := [] },
        champion := none, history := [] } = _
  rw [hcur none]
  rw [fastForward_of_cursor_isSome _ rfl (by rw [hcur]; rfl)]
  rw [hcur]

/-- Claim C3: From exactly 3 present entrants, `makeRound` produces a
three round: `top` is rank 0 of the descending ranking, the qualifier
pairs ranks 1 and 2 with winner unset, and `final` is absent. Settling
puts the cursor on the qualifier. A pick at the qualifier sets the
qualifier winner `q`, synthesizes `final = (top vs q)` with winner
unset, moves the cursor to the final, and leaves the champion unset —
so exactly one further pick is required, and that pick sets `champion`
to the final's winner. -/
theorem c3_three_round_two_picks (l : List Entrant) (h3 : l.length = 3) (s₁ s₂ : Side) :
    ∃ q f : Entrant,
      makeRound (l.map some)
        = { type := .three, entrants := sortEntrants l, bye := none, matches' := [],
            top := (sortEntrants l)[0]?,
            qmatch := some { a := (sortEntrants l)[1]?, b := (sortEntrants l)[2]?,
                             winner := none, id := none },
            final := none, winners := [] } ∧
      List.Pairwise (fun a b => b.popularity ≤ a.popularity) (sortEntrants l) ∧
      buildTournament (l.map some)
        = { roundIndex := 0, rounds := [makeRound (l.map some)],
            cursor := some (.three 0), champion := none, history := [] } ∧
      sideSlot { a := (sortEntrants l)[1]?, b := (sortEntrants l)[2]?, winner := none,
                 id := none } s₁ = some q ∧
      applyPick (buildTournament (l.map some)) s₁
        = some
          { roundIndex := 0,
            rounds := [{ type := .three, entrants := sortEntrants l, bye := none,
                         matches' := [],
                         top := (sortEntrants l)[0]?,
                         qmatch := some { a := (sortEntrants l)[1]?,
                                          b := (sortEntrants l)[2]?,
                                          winner := some q, id := none },
                         final := some { a := (sortEntrants l)[0]?, b := some q,
                                         winner := none, id := none },
                         winners := [] }],
            cursor := some (.final 0), champion := none,
            history := [.threeH 0 q.id] } ∧
      sideSlot { a := (sortEntrants l)[0]?, b := some q, winner := none, id := none } s₂
        = some f ∧
      applyPick
          { roundIndex := 0,
            rounds := [{ type := .three, entrants := sortEntrants l, bye := none,
                         matches' := [],
                         top := (sortEntrants l)[0]?,
                         qmatch := some { a := (sortEntrants l)[1]?,
                                          b := (sortEntrants l)[2]?,
                                          winner := some q, id := none },
                         final := some { a := (sortEntrants l)[0]?, b := some q,
                                         winner := none, id := none },
                         winners := [] }],
            cursor := some (.final 0), champion := none,
            history := [.threeH 0 q.id] } s₂
        = some
          { roundIndex := 0,
            rounds := [{ type := .three, entrants := sortEntrants l, bye := none,
                         matches' := [],
                         top := (sortEntrants l)[0]?,
                         qmatch := some { a := (sortEntrants l)[1]?,
                                          b := (sortEntrants l)[2]?,
                                          winner := some q, id := none },
                         final := some { a := (sortEntrants l)[0]?, b := some q,
                                         winner := some f, id := none },
                         winners := [] }],
            cursor := none, champion := some f,
            history := [.threeH 0 q.id, .finalH 0 f.id] } := by
  have hlen3 : (sortEntrants l).length = 3 := by
    rw [sortEntrants, sortDescBy_length]; exact h3
  obtain ⟨x0, x1, x2, hS⟩ := List.length_eq_three.mp hlen3
  have hmk := makeRound_three l h3
  have hbt := buildTournament_three l h3
  have hsorted := sortDescBy_sorted Entrant.popularity l
  cases s₁ <;> cases s₂
  case a.a =>
    refine ⟨x1, x0, ?_, hsorted, hbt, ?_, ?_, ?_, ?_⟩
    · rw [hmk, hS]; rfl
    · rw [hS]; rfl
    · rw [hbt, hmk, hS]; rfl
    · rw [hS]; rfl
    · rw [hS]; rfl
  case a.b =>
    refine ⟨x1, x1, ?_, hsorted, hbt, ?_, ?_, ?_, ?_⟩
    · rw [hmk, hS]; rfl
    · rw [hS]; rfl
    · rw [hbt, hmk, hS]; rfl
    · rw [hS]; rfl
    · rw [hS]; rfl
  case b.a =>
    refine ⟨x2, x0, ?_, hsorted, hbt, ?_, ?_, ?_, ?_⟩
    · rw [hmk, hS]; rfl
    · rw [hS]; rfl
    · rw [hbt, hmk, hS]; rfl
    · rw [hS]; rfl
    · rw [hS]; rfl
  case b.b =>
    refine ⟨x2, x2, ?_, hsorted, hbt, ?_, ?_, ?_, ?_⟩
    · rw [hmk, hS]; rfl
    · rw [hS]; rfl
    · rw [hbt, hmk, hS]; rfl
    · rw [hS]; rfl
    · rw [hS]; rfl

/-- Witness for C3: the spec's example, three entrants with
popularity [90, 60, 40], qualifier then final both decided by picking
side `a`. -/
theorem c3_three_round_two_picks_witness :
    ([⟨"a", 90⟩, ⟨"b", 60⟩, ⟨"c", 40⟩] : List Entrant).length = 3 ∧
    (∃ q f : Entrant,
      makeRound (([⟨"a", 90⟩, ⟨"b", 60⟩, ⟨"c", 40⟩] : List Entrant).map some)
        = { type := .three,
            entrants := sortEntrants [⟨"a", 90⟩, ⟨"b", 60⟩, ⟨"c", 40⟩], bye := none,
            matches' := [],
            top := (sortEntrants [⟨"a", 90⟩, ⟨"b", 60⟩, ⟨"c", 40⟩])[0]?,
            qmatch := some { a := (sortEntrants [⟨"a", 90⟩, ⟨"b", 60⟩, ⟨"c", 40⟩])[1]?,
                             b := (sortEntrants [⟨"a", 90⟩, ⟨"b", 60⟩, ⟨"c", 40⟩])[2]?,
                             winner := none, id := none },
            final := none, winners := [] } ∧
      List.Pairwise (fun a b => b.popularity ≤ a.popularity)
        (sortEntrants [⟨"a", 90⟩, ⟨"b", 60⟩, ⟨"c", 40⟩]) ∧
      buildTournament (([⟨"a", 90⟩, ⟨"b", 60⟩, ⟨"c", 40⟩] : List Entrant).map some)
        = { roundIndex := 0,
            rounds := [makeRound (([⟨"a", 90⟩, ⟨"b", 60⟩, ⟨"c", 40⟩] : List Entrant).map some)],
            cursor := some (.three 0), champion := none, history := [] } ∧
      sideSlot { a := (sortEntrants [⟨"a", 90⟩, ⟨"b", 60⟩, ⟨"c", 40⟩])[1]?,
                 b := (sortEntrants [⟨"a", 90⟩, ⟨"b", 60⟩, ⟨"c", 40⟩])[2]?, winner := none,
                 id := none } Side.a = some q ∧
      applyPick (buildTournament (([⟨"a", 90⟩, ⟨"b", 60⟩, ⟨"c", 40⟩] : List Entrant).map some))
          Side.a
        = some
          { roundIndex := 0,
            rounds := [{ type := .three,
                         entrants := sortEntrants [⟨"a", 90⟩, ⟨"b", 60⟩, ⟨"c", 40⟩],
                         bye := none, matches' := [],
                         top := (sortEntrants [⟨"a", 90⟩, ⟨"b", 60⟩, ⟨"c", 40⟩])[0]?,
                         qmatch := some
                           { a := (sortEntrants [⟨"a", 90⟩, ⟨"b", 60⟩, ⟨"c", 40⟩])[1]?,
                             b := (sortEntrants [⟨"a", 90⟩, ⟨"b", 60⟩, ⟨"c", 40⟩])[2]?,
                             winner := some q, id := none },
                         final := some
                           { a := (sortEntrants [⟨"a", 90⟩, ⟨"b", 60⟩, ⟨"c", 40⟩])[0]?,
                             b := some q, winner := none, id := none },
                         winners := [] }],
            cursor := some (.final 0), champion := none,
            history := [.threeH 0 q.id] } ∧
      sideSlot { a := (sortEntrants [⟨"a", 90⟩, ⟨"b", 60⟩, ⟨"c", 40⟩])[0]?, b := some q,
                 winner := none, id := none } Side.a = some f ∧
      applyPick
          { roundIndex := 0,
            rounds := [{ type := .three,
                         entrants := sortEntrants [⟨"a", 90⟩, ⟨"b", 60⟩, ⟨"c", 40⟩],
                         bye := none, matches' := [],
                         top := (sortEntrants [⟨"a", 90⟩, ⟨"b", 60⟩, ⟨"c", 40⟩])[0]?,
                         qmatch := some
                           { a := (sortEntrants [⟨"a", 90⟩, ⟨"b", 60⟩, ⟨"c", 40⟩])[1]?,
                             b := (sortEntrants [⟨"a", 90⟩, ⟨"b", 60⟩, ⟨"c", 40⟩])[2]?,
                             winner := some q, id := none },
                         final := some
                           { a := (sortEntrants [⟨"a", 90⟩, ⟨"b", 60⟩, ⟨"c", 40⟩])[0]?,
                             b := some q, winner := none, id := none },
                         winners := [] }],
            cursor := some (.final 0), champion := none,
            history := [.threeH 0 q.id] } Side.a
        = some
          { roundIndex := 0,
            rounds := [{ type := .three,
                         entrants := sortEntrants [⟨"a", 90⟩, ⟨"b", 60⟩, ⟨"c", 40⟩],
                         bye := none, matches' := [],
                         top := (sortEntrants [⟨"a", 90⟩, ⟨"b", 60⟩, ⟨"c", 40⟩])[0]?,
                         qmatch := some
                           { a := (sortEntrants [⟨"a", 90⟩, ⟨"b", 60⟩, ⟨"c", 40⟩])[1]?,
                             b := (sortEntrants [⟨"a", 90⟩, ⟨"b", 60⟩, ⟨"c", 40⟩])[2]?,
                             winner := some q, id := none },
                         final := some
                           { a := (sortEntrants [⟨"a", 90⟩, ⟨"b", 60⟩, ⟨"c", 40⟩])[0]?,
                             b := some q, winner := some f, id := none },
                         winners := [] }],
            cursor := none, champion := some f,
            history := [.threeH 0 q.id, .finalH 0 f.id] }) :=
  ⟨rfl, c3_three_round_two_picks [⟨"a", 90⟩, ⟨"b", 60⟩, ⟨"c", 40⟩] rfl Side.a Side.a⟩

/-! ## List bookkeeping lemmas -/

theorem getElem?_isSome_iff {α} (l : List α) (i : Nat) : l[i]?.isSome ↔ i < l.length := by
  constructor
  · intro h
    by_contra hc
    rw [List.getElem?_eq_none (by omega)] at h
    simp at h
  · intro h
    simp [List.getElem?_eq_getElem h]

theorem sum_matchLive_set (ms : List Match) (i : Nat) (m m' : Match) (h : ms[i]? = some m) :
    ((ms.set i m').map matchLive).sum + matchLive m = (ms.map matchLive).sum + matchLive m' := by
  induction ms generalizing i with
  | nil => simp at h
  | cons x xs ih =>
    cases i with
    | zero =>
      simp only [List.getElem?_cons_zero, Option.some_inj] at h
      subst h
      simp only [List.set_cons_zero, List.map_cons, List.sum_cons]
      omega
    | succ j =>
      simp only [List.getElem?_cons_succ] at h
      have := ih j h
      simp only [List.set_cons_succ, List.map_cons, List.sum_cons]
      omega

theorem sum_matchLive_all_decided (ms : List Match) (h : ∀ m ∈ ms, m.winner.isSome) :
    (ms.map matchLive).sum = ms.length := by
  induction ms with
  | nil => rfl
  | cons x xs ih =>
    have hx := h x (by simp)
    simp only [List.map_cons, List.sum_cons, List.length_cons, matchLive, hx, if_true,
      ih (fun m hm => h m (by simp [hm]))]
    omega

theorem sum_matchLive_all_pending (ms : List Match) (h : ∀ m ∈ ms, m.winner = none) :
    (ms.map matchLive).sum = 2 * ms.length := by
  induction ms with
  | nil => rfl
  | cons x xs ih =>
    have hx := h x (by simp)
    simp only [List.map_cons, List.sum_cons, List.length_cons, matchLive, hx,
      Option.isSome_none, Bool.false_eq_true, if_false,
      ih (fun m hm => h m (by simp [hm]))]
    omega

theorem sum_matchLive_ge_two (ms : List Match) (m : Match) (hm : m ∈ ms) (hw : m.winner = none) :
    2 ≤ (ms.map matchLive).sum := by
  have hle : matchLive m ≤ (ms.map matchLive).sum :=
    List.single_le_sum (fun x _ => Nat.zero_le x) _ (List.mem_map_of_mem matchLive hm)
  rw [matchLive, hw] at hle
  simpa using hle

theorem length_filterMap_winner (ms : List Match) (h : ∀ m ∈ ms, m.winner.isSome) :
    (ms.filterMap Match.winner).length = ms.length := by
  induction ms with
  | nil => rfl
  | cons x xs ih =>
    obtain ⟨w, hw⟩ := Option.isSome_iff_exists.mp (h x (by simp))
    simp only [List.filterMap_cons, hw, List.length_cons,
      ih (fun m hm => h m (by simp [hm]))]

/-! ## `findIndex` lemmas -/

theorem findIndex_eq_none_iff (p : Match → Bool) (l : List Match) :
    findIndex p l = none ↔ ∀ x ∈ l, p x = false := by
  induction l with
  | nil => simp [findIndex]
  | cons m ms ih =>
    simp only [findIndex]
    split
    · rename_i hpm
      simp only [List.mem_cons]
      constructor
      · intro h; simp at h
      · intro h
        have := h m (Or.inl rfl)
        rw [hpm] at this
        simp at this
    · rename_i hpm
      have hpm' : p m = false := by
        cases hp : p m
        · rfl
        · exact absurd hp hpm
      rw [Option.map_eq_none', ih]
      constructor
      · intro h x hx
        rcases List.mem_cons.mp hx with rfl | hx
        · exact hpm'
        · exact h x hx
      · intro h x hx
        exact h x (List.mem_cons.mpr (Or.inr hx))

theorem findIndex_eq_some (p : Match → Bool) (l : List Match) (i : Nat)
    (h : findIndex p l = some i) : ∃ x, l[i]? = some x ∧ p x = true := by
  induction l generalizing i with
  | nil => simp [findIndex] at h
  | cons m ms ih =>
    simp only [findIndex] at h
    split at h
    · rename_i hpm
      cases h
      exact ⟨m, by simp, hpm⟩
    · rw [Option.map_eq_some'] at h
      obtain ⟨j, hj, rfl⟩ := h
      obtain ⟨x, hx, hp⟩ := ih j hj
      exact ⟨x, by simpa using hx, hp⟩

theorem findIndex_isSome (p : Match → Bool) (l : List Match) (x : Match) (hx : x ∈ l)
    (hp : p x = true) : (findIndex p l).isSome := by
  cases hfi : findIndex p l with
  | none =>
    have := (findIndex_eq_none_iff p l).mp hfi x hx
    rw [hp] at this
    simp at this
  | some i => simp

/-! ## `deriveCursor` computation lemmas -/

theorem deriveCursor_no_round (t : Tournament) (h : t.rounds[t.roundIndex]? = none) :
    deriveCursor t = none := by
  unfold deriveCursor
  rw [h]

theorem deriveCursor_done (t : Tournament) (r : Round)
    (hr : t.rounds[t.roundIndex]? = some r) (ht : r.type = .done) : deriveCursor t = none := by
  unfold deriveCursor
  simp [hr, ht]

theorem deriveCursor_three_fresh (t : Tournament) (r : Round) (q : Match)
    (hr : t.rounds[t.roundIndex]? = some r) (ht : r.type = .three) (hq : r.qmatch = some q)
    (hw : q.winner = none) : deriveCursor t = some (.three t.roundIndex) := by
  unfold deriveCursor
  simp [hr, ht, hq, hw]

theorem deriveCursor_three_final_pending (t : Tournament) (r : Round) (q : Match) (w : Entrant)
    (f : Match) (hr : t.rounds[t.roundIndex]? = some r) (ht : r.type = .three)
    (hq : r.qmatch = some q) (hw : q.winner = some w) (hf : r.final = some f)
    (hfw : f.winner = none) : deriveCursor t = some (.final t.roundIndex) := by
  unfold deriveCursor
  simp [hr, ht, hq, hw, hf, hfw]

theorem deriveCursor_three_decided (t : Tournament) (r : Round) (q : Match) (w : Entrant)
    (f : Match) (w' : Entrant) (hr : t.rounds[t.roundIndex]? = some r) (ht : r.type = .three)
    (hq : r.qmatch = some q) (hw : q.winner = some w) (hf : r.final = some f)
    (hfw : f.winner = some w') : deriveCursor t = none := by
  unfold deriveCursor
  simp [hr, ht, hq, hw, hf, hfw]

theorem deriveCursor_normal (t : Tournament) (r : Round)
    (hr : t.rounds[t.roundIndex]? = some r) (ht : r.type = .normal) :
    deriveCursor t
      = (findIndex (fun m => m.winner.isNone && m.a.isSome && m.b.isSome) r.matches').map
          (Cursor.norm t.roundIndex) := by
  unfold deriveCursor
  simp only [hr, ht]
  cases hfi : findIndex (fun m => m.winner.isNone && m.a.isSome && m.b.isSome) r.matches' <;>
    simp [hfi]

/-! ## Shapes of freshly built rounds -/

/-- `makeRound` only looks at the filtered-alive entrants. -/
theorem makeRound_eq_filtered (tracks : List (Option Entrant)) :
    makeRound tracks = makeRound ((tracks.filterMap (fun x => x)).map some) := by
  simp only [makeRound, filterMap_map_some]

theorem makeRound_done (l : List Entrant) (h : l.length ≤ 1) :
    makeRound (l.map some)
      = { type := .done, entrants := l, bye := none, matches' := [],
          top := none, qmatch := none, final := none, winners := [] } := by
  simp only [makeRound, filterMap_map_some]
  rw [if_pos h]

theorem buildMatches_winner_none (pool : List Entrant) :
    ∀ m ∈ buildMatches pool, m.winner = none := by
  intro m hm
  simp only [buildMatches, List.mem_map, List.mem_range] at hm
  obtain ⟨i, hi, rfl⟩ := hm
  rfl

theorem buildMatches_slots (pool : List Entrant) (_h2 : 2 ≤ pool.length) :
    ∀ m ∈ buildMatches pool, m.a.isSome ∧ m.b.isSome := by
  intro m hm
  simp only [buildMatches, List.mem_map, List.mem_range] at hm
  obtain ⟨i, hi, rfl⟩ := hm
  constructor
  · show (pool[i]?).isSome
    rw [getElem?_isSome_iff]
    omega
  · show (pool[pool.length - 1 - i]?).isSome
    rw [getElem?_isSome_iff]
    omega

theorem buildMatches_ne_nil (pool : List Entrant) (h2 : 2 ≤ pool.length) :
    buildMatches pool ≠ [] := by
  simp only [buildMatches, ne_eq, List.map_eq_nil_iff, List.range_eq_nil]
  omega

theorem foldPool_length (l : List Entrant) :
    (foldPool l).length = if l.length % 2 = 1 then l.length - 1 else l.length := by
  have hslen : (sortEntrants l).length = l.length := sortDescBy_length _ _
  unfold foldPool
  split
  · simp [List.length_tail, hslen]
  · exact hslen

theorem foldPool_two_le (l : List Entrant) (h2 : 2 ≤ l.length) (_h3 : l.length ≠ 3) :
    2 ≤ (foldPool l).length := by
  rw [foldPool_length]
  split <;> omega

/-- A freshly built round over at least two present survivors is
structurally healthy and keeps all of them alive. -/
theorem goodRound_makeRound (l : List Entrant) (h2 : 2 ≤ l.length) :
    GoodRound (makeRound (l.map some)) ∧ roundAlive (makeRound (l.map some)) = l.length := by
  have hslen : (sortEntrants l).length = l.length := sortDescBy_length _ _
  by_cases h3 : l.length = 3
  · rw [makeRound_three l h3]
    have hlen3 : (sortEntrants l).length = 3 := by rw [hslen]; exact h3
    obtain ⟨x0, x1, x2, hS⟩ := List.length_eq_three.mp hlen3
    constructor
    · simp only [GoodRound]
      refine ⟨_, rfl, ?_, ?_, ?_, ?_⟩
      · rw [hS]; rfl
      · rw [hS]; rfl
      · rw [hS]; rfl
      · simp
    · show roundAlive _ = l.length
      simp [roundAlive]
      omega
  · rw [makeRound_normal l h2 h3]
    have hpl2 : 2 ≤ (foldPool l).length := foldPool_two_le l h2 h3
    constructor
    · refine ⟨buildMatches_ne_nil _ hpl2, buildMatches_slots _ hpl2, ?_⟩
      intro hall
      obtain ⟨m, hm⟩ := List.exists_mem_of_ne_nil _ (buildMatches_ne_nil _ hpl2)
      have hw := buildMatches_winner_none (foldPool l) m hm
      have h2' := hall m hm
      rw [hw] at h2'
      simp at h2'
    · show roundAlive _ = l.length
      simp only [roundAlive]
      rw [sum_matchLive_all_pending _ (buildMatches_winner_none _), buildMatches_length]
      have hplen := foldPool_length l
      by_cases hpar : l.length % 2 = 1
      · have hne : sortEntrants l ≠ [] := by
          intro hnil
          rw [hnil] at hslen
          simp at hslen
          omega
        have hhead : ((sortEntrants l).head?).isSome = true := by
          cases hcase : sortEntrants l with
          | nil => exact absurd hcase hne
          | cons x xs => simp
        simp [hplen, hpar, hhead]
        omega
      · simp [hplen, hpar]
        omega

/-- A tournament whose active round was freshly built from at least two
survivors has a pending cursor. -/
theorem deriveCursor_fresh (t : Tournament) (l : List Entrant) (h2 : 2 ≤ l.length)
    (hr : t.rounds[t.roundIndex]? = some (makeRound (l.map some))) :
    (deriveCursor t).isSome := by
  by_cases h3 : l.length = 3
  · rw [makeRound_three l h3] at hr
    rw [deriveCursor_three_fresh t _ _ hr rfl rfl rfl]
    rfl
  · rw [makeRound_normal l h2 h3] at hr
    rw [deriveCursor_normal t _ hr rfl]
    have hpl2 : 2 ≤ (foldPool l).length := foldPool_two_le l h2 h3
    obtain ⟨m, hm⟩ := List.exists_mem_of_ne_nil _ (buildMatches_ne_nil _ hpl2)
    have hw := buildMatches_winner_none _ m hm
    have hs := buildMatches_slots _ hpl2 m hm
    have hp : (fun m => m.winner.isNone && m.a.isSome && m.b.isSome) m = true := by
      simp [hw, hs.1, hs.2]
    rw [Option.isSome_map']
    exact findIndex_isSome _ _ m hm hp

/-! ## Invariant-level lemmas -/

theorem applyPick_cursor_none (t : Tournament) (s : Side) (h : t.cursor = none) :
    applyPick t s = some t := by
  simp only [applyPick, deepClone, h]

theorem ffLoop_champion (fuel : Nat) (t : Tournament) (hch : t.champion.isSome) :
    ffLoop fuel t = t := by
  cases fuel with
  | zero => rfl
  | succ n => simp only [ffLoop, hch, if_true]

theorem fastForward_champion (t : Tournament) (hch : t.champion.isSome)
    (hc : t.cursor = deriveCursor t) : fastForwardIfNeeded t = t := by
  show (let t' := ffLoop (t.rounds.length + 2) t; { t' with cursor := deriveCursor t' }) = t
  have h1 : ffLoop (t.rounds.length + 2) t = t := ffLoop_champion _ t hch
  simp only [h1]
  rw [← hc]

theorem tAlive_of_active (t : Tournament) (r : Round) (hr : t.rounds[t.roundIndex]? = some r) :
    tAlive t = roundAlive r := by
  simp only [tAlive, hr]

theorem roundAlive_done (r : Round) (htype : r.type = .done) :
    roundAlive r = r.entrants.length := by
  simp only [roundAlive, htype]

theorem roundAlive_normal (r : Round) (htype : r.type = .normal) :
    roundAlive r = (r.matches'.map matchLive).sum + (if r.bye.isSome then 1 else 0) := by
  simp only [roundAlive, htype]

theorem roundAlive_three_fresh (r : Round) (q : Match) (htype : r.type = .three)
    (hq : r.qmatch = some q) (hw : q.winner = none) (hf : r.final = none) :
    roundAlive r = 3 := by
  simp only [roundAlive, htype, hf, hq]
  simp [hw]

theorem roundAlive_three_pending (r : Round) (f : Match) (htype : r.type = .three)
    (hf : r.final = some f) (hfw : f.winner = none) : roundAlive r = 2 := by
  simp only [roundAlive, htype, hf]
  simp [hfw]

theorem roundAlive_three_decided (r : Round) (f : Match) (w : Entrant) (htype : r.type = .three)
    (hf : r.final = some f) (hfw : f.winner = some w) : roundAlive r = 1 := by
  simp only [roundAlive, htype, hf]
  simp [hfw]

theorem exists_pending_of_not_all (ms : List Match)
    (hnall : ¬ ∀ m ∈ ms, m.winner.isSome) : ∃ m ∈ ms, m.winner = none := by
  by_contra hc
  push_neg at hc
  exact hnall fun m hm => Option.ne_none_iff_isSome.mp (hc m hm)

theorem deriveCursor_isSome_of_good_normal (t : Tournament) (r : Round)
    (hr : t.rounds[t.roundIndex]? = some r) (htype : r.type = .normal)
    (hslots : ∀ m ∈ r.matches', m.a.isSome ∧ m.b.isSome)
    (hnall : ¬ ∀ m ∈ r.matches', m.winner.isSome) : (deriveCursor t).isSome := by
  rw [deriveCursor_normal t r hr htype, Option.isSome_map']
  obtain ⟨m, hm, hw⟩ := exists_pending_of_not_all _ hnall
  refine findIndex_isSome _ _ m hm ?_
  simp [hw, (hslots m hm).1, (hslots m hm).2]

theorem deriveCursor_isSome_of_good_three (t : Tournament) (r : Round)
    (hr : t.rounds[t.roundIndex]? = some r) (htype : r.type = .three) (hg : GoodRound r) :
    (deriveCursor t).isSome := by
  rw [GoodRound, htype] at hg
  obtain ⟨q, hq, _, _, _, disj⟩ := hg
  rcases disj with ⟨hw, _⟩ | ⟨w, f, hw, hf, _, _, hfw⟩
  · rw [deriveCursor_three_fresh t r q hr htype hq hw]; rfl
  · rw [deriveCursor_three_final_pending t r q w f hr htype hq hw hf hfw]; rfl

/-- Under the invariant, the champion field is set exactly when a sole
survivor remains in the active round. -/
theorem inv_champion_iff_alive (t : Tournament) (hinv : Inv t) :
    t.champion.isSome ↔ tAlive t = 1 := by
  obtain ⟨hlen, r, hr, hcur, hca⟩ := hinv
  have htA : tAlive t = roundAlive r := tAlive_of_active t r hr
  rcases hca with ⟨c, hch, _, hal⟩ | ⟨hch, hgood⟩
  · simp [hch, htA, hal]
  · have halive : roundAlive r ≠ 1 := by
      cases htype : r.type
      case normal =>
        rw [GoodRound, htype] at hgood
        obtain ⟨hne, hslots, hnall⟩ := hgood
        obtain ⟨m, hm, hw⟩ := exists_pending_of_not_all _ hnall
        have hsum := sum_matchLive_ge_two r.matches' m hm hw
        rw [roundAlive_normal r htype]
        omega
      case three =>
        rw [GoodRound, htype] at hgood
        obtain ⟨q, hq, _, _, _, disj⟩ := hgood
        rcases disj with ⟨hw, hf⟩ | ⟨w, f, hw, hf, _, _, hfw⟩
        · rw [roundAlive_three_fresh r q htype hq hw hf]; omega
        · rw [roundAlive_three_pending r f htype hf hfw]; omega
      case done =>
        rw [GoodRound, htype] at hgood
        rw [roundAlive_done r htype, hgood]
        simp
    simp [hch, htA, halive]

/-- Under the invariant, `settle` (`fastForwardIfNeeded`) fixes the
snapshot: every reachable state is already settled. -/
theorem fastForward_of_inv (t : Tournament) (hinv : Inv t) : fastForwardIfNeeded t = t := by
  obtain ⟨hlen, r, hr, hcur, hca⟩ := hinv
  rcases hca with ⟨c, hch, hc0, hal⟩ | ⟨hch, hgood⟩
  · exact fastForward_champion t (by rw [hch]; rfl) hcur
  · cases htype : r.type
    case normal =>
      have hg := hgood
      rw [GoodRound, htype] at hg
      obtain ⟨hne, hslots, hnall⟩ := hg
      rw [fastForward_of_cursor_isSome t hch
        (deriveCursor_isSome_of_good_normal t r hr htype hslots hnall), ← hcur]
    case three =>
      rw [fastForward_of_cursor_isSome t hch
        (deriveCursor_isSome_of_good_three t r hr htype hgood), ← hcur]
    case done =>
      have hg := hgood
      rw [GoodRound, htype] at hg
      have hd : deriveCursor t = none := deriveCursor_done t r hr htype
      have hloop : ffLoop (t.rounds.length + 2) t = { t with cursor := deriveCursor t } := by
        show ffLoop (t.rounds.length + 1 + 1) t = _
        simp only [ffLoop, hch, Option.isSome_none, Bool.false_eq_true, if_false, hr, hd,
          htype, hg]
        simp
      show (let t' := ffLoop (t.rounds.length + 2) t; { t' with cursor := deriveCursor t' }) = t
      simp only [hloop, deriveCursor_set_cursor]
      rw [← hcur]

/-! ## `buildTournament` establishes the invariant -/

theorem buildTournament_eq_filtered (tracks : List (Option Entrant)) :
    buildTournament tracks
      = buildTournament ((tracks.filterMap (fun x => x)).map some) := by
  unfold buildTournament
  rw [makeRound_eq_filtered tracks]

/-- Building from at least two present survivors settles into the
fresh round with its derived cursor and no champion. -/
theorem buildTournament_fresh (l : List Entrant) (hl2 : 2 ≤ l.length) :
    buildTournament (l.map some)
      = { roundIndex := 0, rounds := [makeRound (l.map some)],
          cursor := deriveCursor
            { roundIndex := 0, rounds := [makeRound (l.map some)], cursor := none,
              champion := none, history := [] },
          champion := none, history := [] } := by
  have hdS : (deriveCursor
      { roundIndex := 0, rounds := [makeRound (l.map some)], cursor := none,
        champion := none, history := [] }).isSome :=
    deriveCursor_fresh _ l hl2 rfl
  show fastForwardIfNeeded
      { roundIndex := 0, rounds := [makeRound (l.map some)],
        cursor := deriveCursor
          { roundIndex := 0, rounds := [makeRound (l.map some)], cursor := none,
            champion := none, history := [] },
        champion := none, history := [] } = _
  rw [fastForward_of_cursor_isSome
    { roundIndex := 0, rounds := [makeRound (l.map some)],
      cursor := deriveCursor
        { roundIndex := 0, rounds := [makeRound (l.map some)], cursor := none,
          champion := none, history := [] },
      champion := none, history := [] } rfl hdS]
  rfl

/-- `buildTournament` yields an invariant-satisfying snapshot whose
active round keeps all filtered entrants alive, with empty history. -/
theorem buildTournament_inv (tracks : List (Option Entrant)) :
    Inv (buildTournament tracks) ∧
      tAlive (buildTournament tracks) = (tracks.filterMap (fun x => x)).length ∧
      (buildTournament tracks).history = [] := by
  rw [buildTournament_eq_filtered tracks]
  have hfl : ((tracks.filterMap (fun x => x)).map some).filterMap (fun x => x)
      = tracks.filterMap (fun x => x) := filterMap_map_some _
  generalize tracks.filterMap (fun x => x) = l at *
  cases l with
  | nil =>
    exact ⟨⟨rfl, _, rfl, rfl, Or.inr ⟨rfl, rfl⟩⟩, rfl, rfl⟩
  | cons e rest =>
    cases rest with
    | nil =>
      exact ⟨⟨rfl, _, rfl, rfl, Or.inl ⟨e, rfl, rfl, rfl⟩⟩, rfl, rfl⟩
    | cons e2 rest2 =>
      have hl2 : 2 ≤ (e :: e2 :: rest2).length := by simp
      have hgr := goodRound_makeRound (e :: e2 :: rest2) hl2
      rw [buildTournament_fresh _ hl2]
      refine ⟨⟨rfl, makeRound ((e :: e2 :: rest2).map some), rfl, rfl,
        Or.inr ⟨rfl, hgr.1⟩⟩, ?_, rfl⟩
      exact hgr.2

/-! ## One pick: the step lemma -/

/-- Any pick at a pending cursor of an invariant state applies: it
returns a new snapshot, preserves the invariant, eliminates exactly one
survivor, and appends exactly one history entry. -/
theorem applyPick_step (t : Tournament) (s : Side) (hinv : Inv t) (hch : t.champion = none)
    (hcs : t.cursor.isSome) :
    ∃ t', applyPick t s = some t' ∧ Inv t' ∧ tAlive t' + 1 = tAlive t ∧
      t'.history.length = t.history.length + 1 := by
  obtain ⟨hlen, r, hr, hcur, hca⟩ := hinv
  rcases hca with ⟨c, hchs, _, _⟩ | ⟨_, hgood⟩
  · rw [hchs] at hch
    exact absurd hch (by simp)
  obtain ⟨ri, rs, cur, ch, hist⟩ := t
  dsimp only at hr hcur hch hcs hlen ⊢
  subst hch
  have hrilt : ri < rs.length := by
    have := (getElem?_isSome_iff rs ri).mp (by rw [hr]; rfl)
    omega
  cases htype : r.type
  case done =>
    rw [GoodRound, htype] at hgood
    rw [hcur, deriveCursor_done _ r hr htype] at hcs
    simp at hcs
  case three =>
    rw [GoodRound, htype] at hgood
    obtain ⟨q, hq, hqa, hqb, htop, disj⟩ := hgood
    rcases disj with ⟨hqw, hfin⟩ | ⟨w0, f, hqw, hf, hfa, hfb, hfw⟩
    · -- fresh three round: the pick decides the qualifier and synthesizes the final
      have hdc : deriveCursor ⟨ri, rs, cur, none, hist⟩ = some (.three ri) :=
        deriveCursor_three_fresh _ r q hr htype hq hqw
      rw [hdc] at hcur
      subst hcur
      obtain ⟨w, hw⟩ : ∃ w, sideSlot q s = some w := by
        cases s
        · exact Option.isSome_iff_exists.mp hqa
        · exact Option.isSome_iff_exists.mp hqb
      have hr' : (rs.set ri (qualDecided r q w))[ri]? = some (qualDecided r q w) :=
        List.getElem?_set_self hrilt
      have halive' : roundAlive (qualDecided r q w) = 2 :=
        roundAlive_three_pending (qualDecided r q w)
          { a := r.top, b := some w, winner := none, id := none } htype rfl rfl
      refine ⟨{ roundIndex := ri, rounds := rs.set ri (qualDecided r q w),
                cursor := deriveCursor
                  ⟨ri, rs.set ri (qualDecided r q w), some (.three ri), none,
                    hist ++ [HistEntry.threeH ri w.id]⟩,
                champion := none,
                history := hist ++ [HistEntry.threeH ri w.id] }, ?_, ?_, ?_, ?_⟩
      · simp only [applyPick, deepClone, hr, hq, hw]
        rfl
      · refine ⟨by simp [List.length_set]; omega, qualDecided r q w, hr', rfl,
          Or.inr ⟨rfl, ?_⟩⟩
        rw [GoodRound]
        have hqt : (qualDecided r q w).type = RoundType.three := htype
        rw [hqt]
        exact ⟨{ q with winner := some w }, rfl, hqa, hqb, htop,
          Or.inr ⟨w, { a := r.top, b := some w, winner := none, id := none },
            rfl, rfl, rfl, rfl, rfl⟩⟩
      · rw [tAlive_of_active _ _ hr', tAlive_of_active _ _ hr, halive',
          roundAlive_three_fresh r q htype hq hqw hfin]
      · simp
    · -- three round with pending final: the pick decides it and crowns the champion
      have hdc : deriveCursor ⟨ri, rs, cur, none, hist⟩ = some (.final ri) :=
        deriveCursor_three_final_pending _ r q w0 f hr htype hq hqw hf hfw
      rw [hdc] at hcur
      subst hcur
      obtain ⟨w, hw⟩ : ∃ w, sideSlot f s = some w := by
        cases s
        · exact Option.isSome_iff_exists.mp
            (show (f.a).isSome = true by rw [hfa]; exact htop)
        · exact ⟨w0, hfb⟩
      have hr' : (rs.set ri (finalDecided r f w))[ri]? = some (finalDecided r f w) :=
        List.getElem?_set_self hrilt
      refine ⟨{ roundIndex := ri, rounds := rs.set ri (finalDecided r f w),
                cursor := none, champion := some w,
                history := hist ++ [HistEntry.finalH ri w.id] }, ?_, ?_, ?_, ?_⟩
      · simp only [applyPick, deepClone, hr, hf, hw]
        rfl
      · refine ⟨by simp [List.length_set]; omega, finalDecided r f w, hr', ?_,
          Or.inl ⟨w, rfl, rfl, ?_⟩⟩
        · rw [deriveCursor_three_decided _ (finalDecided r f w) q w0
            { f with winner := some w } w hr' htype hq hqw rfl rfl]
        · exact roundAlive_three_decided (finalDecided r f w)
            { f with winner := some w } w htype rfl rfl
      · rw [tAlive_of_active _ _ hr', tAlive_of_active _ _ hr,
          roundAlive_three_decided (finalDecided r f w) { f with winner := some w } w
            htype rfl rfl,
          roundAlive_three_pending r f htype hf hfw]
      · simp
  case normal =>
    rw [GoodRound, htype] at hgood
    obtain ⟨hne, hslots, hnall⟩ := hgood
    have hdS := deriveCursor_isSome_of_good_normal ⟨ri, rs, cur, none, hist⟩ r hr htype
      hslots hnall
    obtain ⟨i, hfi⟩ : ∃ i, findIndex (fun m => m.winner.isNone && m.a.isSome && m.b.isSome)
        r.matches' = some i := by
      rw [deriveCursor_normal _ r hr htype, Option.isSome_map'] at hdS
      exact Option.isSome_iff_exists.mp hdS
    have hdc : deriveCursor ⟨ri, rs, cur, none, hist⟩ = some (.norm ri i) := by
      rw [deriveCursor_normal _ r hr htype, hfi]
      rfl
    rw [hdc] at hcur
    subst hcur
    obtain ⟨m, hmi, hpm⟩ := findIndex_eq_some _ _ i hfi
    simp only [Bool.and_eq_true, Option.isNone_iff_eq_none] at hpm
    obtain ⟨⟨hwn, han⟩, hbn⟩ := hpm
    obtain ⟨w, hw⟩ : ∃ w, sideSlot m s = some w := by
      cases s
      · exact Option.isSome_iff_exists.mp han
      · exact Option.isSome_iff_exists.mp hbn
    have hilt : i < r.matches'.length := by
      have := (getElem?_isSome_iff r.matches' i).mp (by rw [hmi]; rfl)
      omega
    have hr' : (rs.set ri (matchDecided r i m w))[ri]? = some (matchDecided r i m w) :=
      List.getElem?_set_self hrilt
    have hlen' : ri + 1 = (rs.set ri (matchDecided r i m w)).length := by
      simp [List.length_set]
      omega
    have hsumset := sum_matchLive_set r.matches' i m { m with winner := some w } hmi
    have hlm2 : matchLive m = 2 := by
      rw [matchLive, hwn]
      rfl
    have hlm1 : matchLive { m with winner := some w } = 1 := rfl
    have hsum : ((matchDecided r i m w).matches'.map matchLive).sum + 2
        = (r.matches'.map matchLive).sum + 1 := by
      simp only [matchDecided]
      omega
    have hslots' : ∀ x ∈ (matchDecided r i m w).matches', x.a.isSome ∧ x.b.isSome := by
      intro x hx
      simp only [matchDecided] at hx
      rcases List.mem_or_eq_of_mem_set hx with hx' | rfl
      · exact hslots x hx'
      · exact ⟨han, hbn⟩
    have hlenms : (matchDecided r i m w).matches'.length = r.matches'.length := by
      simp [matchDecided]
    have halive_r : roundAlive r
        = (r.matches'.map matchLive).sum + (if r.bye.isSome then 1 else 0) :=
      roundAlive_normal r htype
    have halive' : roundAlive (matchDecided r i m w)
        = ((matchDecided r i m w).matches'.map matchLive).sum
          + (if r.bye.isSome then 1 else 0) := by
      have h0 := roundAlive_normal (matchDecided r i m w) htype
      simpa only [matchDecided] using h0
    by_cases hall : ((matchDecided r i m w).matches'.all fun x => x.winner.isSome) = true
    · -- the pick completed the round
      have hAll : ∀ x ∈ (matchDecided r i m w).matches', x.winner.isSome :=
        fun x hx => List.all_eq_true.mp hall x hx
      have hsumdone : ((matchDecided r i m w).matches'.map matchLive).sum
          = (matchDecided r i m w).matches'.length := sum_matchLive_all_decided _ hAll
      have hbyelen : (match r.bye with | some e => [e] | none => ([] : List Entrant)).length
          = (if r.bye.isSome then 1 else 0) := by
        cases r.bye <;> rfl
      have hwlen : (winnersOf (matchDecided r i m w)).length
          = r.matches'.length + (if r.bye.isSome then 1 else 0) := by
        simp only [winnersOf, List.length_append, matchDecided]
        rw [length_filterMap_winner _ (by simpa only [matchDecided] using hAll)]
        rw [List.length_set]
        omega
      by_cases h1 : (winnersOf (matchDecided r i m w)).length = 1
      · -- a sole survivor: champion is crowned
        obtain ⟨w0, hw0⟩ := List.length_eq_one.mp h1
        have hfi' : findIndex (fun x => x.winner.isNone && x.a.isSome && x.b.isSome)
            (matchDecided r i m w).matches' = none := by
          rw [findIndex_eq_none_iff]
          intro x hx
          have hxw := hAll x hx
          obtain ⟨wx, hwx⟩ := Option.isSome_iff_exists.mp hxw
          simp [hwx]
        refine ⟨{ roundIndex := ri, rounds := rs.set ri (matchDecided r i m w),
                  cursor := none,
                  champion := (winnersOf (matchDecided r i m w)).head?,
                  history := hist ++ [HistEntry.matchH ri i w.id] }, ?_, ?_, ?_, ?_⟩
        · have hallf := hall
          simp only [matchDecided] at hallf h1
          simp only [applyPick, deepClone, hr, hmi, hw, hallf, if_true, h1]
          rfl
        · refine ⟨hlen', matchDecided r i m w, hr', ?_, Or.inl ⟨w0, ?_, rfl, ?_⟩⟩
          · rw [deriveCursor_normal _ (matchDecided r i m w) hr' htype, hfi']
            rfl
          · show (winnersOf (matchDecided r i m w)).head? = some w0
            rw [hw0]
            rfl
          · rw [halive', hsumdone]
            omega
        · rw [tAlive_of_active _ _ hr', tAlive_of_active _ _ hr, halive', halive_r]
          omega
        · simp
      · -- at least two survivors: next round is built and settles on its cursor
        have hge1 : 1 ≤ r.matches'.length := by
          cases hrm : r.matches' with
          | nil => exact absurd hrm hne
          | cons x xs => simp
        have hge2 : 2 ≤ (winnersOf (matchDecided r i m w)).length := by
          omega
        have hfreshG := goodRound_makeRound (winnersOf (matchDecided r i m w)) hge2
        have hsetlen : (rs.set ri (matchDecided r i m w)).length = ri + 1 := by
          rw [List.length_set]
          omega
        have hT2r : ((rs.set ri (matchDecided r i m w))
            ++ [makeRound ((winnersOf (matchDecided r i m w)).map some)])[ri + 1]?
            = some (makeRound ((winnersOf (matchDecided r i m w)).map some)) := by
          rw [← hsetlen, List.getElem?_concat_length]
        have hder2 : (deriveCursor
            ⟨ri + 1,
              (rs.set ri (matchDecided r i m w))
                ++ [makeRound ((winnersOf (matchDecided r i m w)).map some)],
              some (.norm ri i), none, hist ++ [HistEntry.matchH ri i w.id]⟩).isSome :=
          deriveCursor_fresh _ (winnersOf (matchDecided r i m w)) hge2 hT2r
        have hsettle : fastForwardIfNeeded
            ⟨ri + 1,
              (rs.set ri (matchDecided r i m w))
                ++ [makeRound ((winnersOf (matchDecided r i m w)).map some)],
              deriveCursor
                ⟨ri + 1,
                  (rs.set ri (matchDecided r i m w))
                    ++ [makeRound ((winnersOf (matchDecided r i m w)).map some)],
                  some (.norm ri i), none, hist ++ [HistEntry.matchH ri i w.id]⟩,
              none, hist ++ [HistEntry.matchH ri i w.id]⟩
            = ⟨ri + 1,
                (rs.set ri (matchDecided r i m w))
                  ++ [makeRound ((winnersOf (matchDecided r i m w)).map some)],
                deriveCursor
                  ⟨ri + 1,
                    (rs.set ri (matchDecided r i m w))
                      ++ [makeRound ((winnersOf (matchDecided r i m w)).map some)],
                    some (.norm ri i), none, hist ++ [HistEntry.matchH ri i w.id]⟩,
                none, hist ++ [HistEntry.matchH ri i w.id]⟩ := by
          rw [fastForward_of_cursor_isSome
            ⟨ri + 1,
              (rs.set ri (matchDecided r i m w))
                ++ [makeRound ((winnersOf (matchDecided r i m w)).map some)],
              deriveCursor
                ⟨ri + 1,
                  (rs.set ri (matchDecided r i m w))
                    ++ [makeRound ((winnersOf (matchDecided r i m w)).map some)],
                  some (.norm ri i), none, hist ++ [HistEntry.matchH ri i w.id]⟩,
              none, hist ++ [HistEntry.matchH ri i w.id]⟩ rfl hder2]
          rfl
        refine ⟨⟨ri + 1,
            (rs.set ri (matchDecided r i m w))
              ++ [makeRound ((winnersOf (matchDecided r i m w)).map some)],
            deriveCursor
              ⟨ri + 1,
                (rs.set ri (matchDecided r i m w))
                  ++ [makeRound ((winnersOf (matchDecided r i m w)).map some)],
                some (.norm ri i), none, hist ++ [HistEntry.matchH ri i w.id]⟩,
            none, hist ++ [HistEntry.matchH ri i w.id]⟩, ?_, ?_, ?_, ?_⟩
        · have hallf := hall
          simp only [matchDecided] at hallf h1
          simp only [applyPick, deepClone, hr, hmi, hw, hallf, if_true, h1, if_false]
          rw [← hsettle]
          rfl
        · refine ⟨by simp [hsetlen], makeRound ((winnersOf (matchDecided r i m w)).map some),
            hT2r, rfl, Or.inr ⟨rfl, hfreshG.1⟩⟩
        · rw [tAlive_of_active _ _ hT2r, tAlive_of_active _ _ hr, hfreshG.2, halive_r]
          omega
        · simp
    · -- the round still has pending matches: cursor is recomputed
      have hnall' : ¬ ∀ x ∈ (matchDecided r i m w).matches', x.winner.isSome := by
        intro hforall
        exact hall (List.all_eq_true.mpr fun x hx => hforall x hx)
      have hne' : (matchDecided r i m w).matches' ≠ [] := by
        simp only [matchDecided]
        intro h0
        apply hne
        have hlen0 := congrArg List.length h0
        rw [List.length_set] at hlen0
        exact List.length_eq_zero.mp hlen0
      refine ⟨{ roundIndex := ri, rounds := rs.set ri (matchDecided r i m w),
                cursor := deriveCursor
                  ⟨ri, rs.set ri (matchDecided r i m w), some (.norm ri i), none,
                    hist ++ [HistEntry.matchH ri i w.id]⟩,
                champion := none,
                history := hist ++ [HistEntry.matchH ri i w.id] }, ?_, ?_, ?_, ?_⟩
      · have hallf : ((r.matches'.set i { m with winner := some w }).all
            fun x => x.winner.isSome) = false := by
          cases hx : ((r.matches'.set i { m with winner := some w }).all
              fun x => x.winner.isSome)
          · rfl
          · exact absurd hx (by simpa only [matchDecided] using hall)
        simp only [applyPick, deepClone, hr, hmi, hw, hallf]
        rfl
      · refine ⟨hlen', matchDecided r i m w, hr', rfl, Or.inr ⟨rfl, ?_⟩⟩
        rw [GoodRound]
        have hmt : (matchDecided r i m w).type = RoundType.normal := htype
        rw [hmt]
        exact ⟨hne', hslots', hnall'⟩
      · simp only [tAlive, hr', hr]
        rw [halive', halive_r]
        omega
      · simp

/-! ## Reachability preserves the invariant -/

theorem applyPick_inv (t : Tournament) (s : Side) (hinv : Inv t) :
    ∀ t', applyPick t s = some t' → Inv t' := by
  intro t' hap
  cases hcs : t.cursor with
  | none =>
    rw [applyPick_cursor_none t s hcs] at hap
    cases hap
    exact hinv
  | some c =>
    cases hch : t.champion with
    | some e =>
      obtain ⟨_, r, hr, hcur, hca⟩ := hinv
      rcases hca with ⟨c2, _, hc0, _⟩ | ⟨hchn, _⟩
      · rw [hc0] at hcs
        cases hcs
      · rw [hchn] at hch
        cases hch
    | none =>
      obtain ⟨t'', hap', hinv', _, _⟩ := applyPick_step t s hinv hch (by rw [hcs]; rfl)
      rw [hap'] at hap
      cases hap
      exact hinv'

theorem reachable_inv (t : Tournament) (h : Reachable t) : Inv t := by
  induction h with
  | build l => exact (buildTournament_inv l).1
  | pick s hre hap ih => exact applyPick_inv _ s ih _ hap
  | settle hre ih =>
    rw [fastForward_of_inv _ ih]
    exact ih

/-! ## The champion state is terminal (C4) -/

/-- Claim C4: On every reachable tournament: once `champion` is set the
stored cursor is `null` and both operations are identities — `applyPick`
returns the unchanged snapshot (for either side) and
`fastForwardIfNeeded` returns the unchanged snapshot; moreover
`champion` is set exactly when the tournament is complete (a sole
survivor remains). -/
theorem c4_champion_terminal_immutable (t : Tournament) (s : Side) (hre : Reachable t) :
    (t.champion.isSome →
      t.cursor = none ∧ applyPick t s = some t ∧ fastForwardIfNeeded t = t) ∧
    (t.champion.isSome ↔ isComplete t) := by
  have hinv := reachable_inv t hre
  constructor
  · intro hch
    have hc0 : t.cursor = none := by
      obtain ⟨_, r, hr, hcur, hca⟩ := hinv
      rcases hca with ⟨c, _, hc0, _⟩ | ⟨hchn, _⟩
      · exact hc0
      · rw [hchn] at hch
        simp at hch
    exact ⟨hc0, applyPick_cursor_none t s hc0, fastForward_of_inv t hinv⟩
  · exact inv_champion_iff_alive t hinv

/-- Witness for C4: the one-entrant tournament is terminal — its
champion is set, its cursor is `null`, picks and settles return it
unchanged, and it is complete. -/
theorem c4_champion_terminal_immutable_witness :
    (buildTournament [some ⟨"x", 5⟩]).champion.isSome ∧
    ((buildTournament [some ⟨"x", 5⟩]).cursor = none ∧
      applyPick (buildTournament [some ⟨"x", 5⟩]) Side.a
        = some (buildTournament [some ⟨"x", 5⟩]) ∧
      fastForwardIfNeeded (buildTournament [some ⟨"x", 5⟩])
        = buildTournament [some ⟨"x", 5⟩]) ∧
    ((buildTournament [some ⟨"x", 5⟩]).champion.isSome
      ↔ isComplete (buildTournament [some ⟨"x", 5⟩])) :=
  ⟨by decide,
    (c4_champion_terminal_immutable _ Side.a (Reachable.build _)).1 (by decide),
    (c4_champion_terminal_immutable _ Side.a (Reachable.build _)).2⟩

/-! ## Cursor integrity on reachable states (C10) -/

/-- Claim C10: On every reachable tournament the stored cursor equals
`deriveCursor` of the snapshot, and a non-null cursor points at an
existing match of the active round (qualifier, synthesized final, or
in-bounds normal match) that is undecided with both slots present —
hence a pick at a non-null cursor always applies (no crash and no
empty-slot rejection: a history entry is appended). -/
theorem c10_cursor_points_at_pending_match (t : Tournament) (s : Side) (hre : Reachable t) :
    t.cursor = deriveCursor t ∧
    (∀ c, t.cursor = some c →
      ∃ r m, t.rounds[t.roundIndex]? = some r ∧ cursorMatchOf r c = some m ∧
        m.winner = none ∧ m.a.isSome ∧ m.b.isSome) ∧
    (t.cursor.isSome →
      ∃ t', applyPick t s = some t' ∧ t'.history.length = t.history.length + 1) := by
  have hinv := reachable_inv t hre
  obtain ⟨hlen, r, hr, hcur, hca⟩ := hinv
  have hch : t.cursor.isSome → t.champion = none := by
    intro hcs
    rcases hca with ⟨c, _, hc0, _⟩ | ⟨hchn, _⟩
    · rw [hc0] at hcs
      simp at hcs
    · exact hchn
  refine ⟨hcur, ?_, ?_⟩
  · intro c hc
    have hchn : t.champion = none := hch (by rw [hc]; rfl)
    rcases hca with ⟨c2, hchs, _, _⟩ | ⟨_, hgood⟩
    · rw [hchs] at hchn
      cases hchn
    cases htype : r.type
    case done =>
      rw [hcur, deriveCursor_done t r hr htype] at hc
      cases hc
    case three =>
      rw [GoodRound, htype] at hgood
      obtain ⟨q, hq, hqa, hqb, htop, disj⟩ := hgood
      rcases disj with ⟨hqw, hfin⟩ | ⟨w0, f, hqw, hf, hfa, hfb, hfw⟩
      · rw [hcur, deriveCursor_three_fresh t r q hr htype hq hqw] at hc
        cases hc
        exact ⟨r, q, hr, hq, hqw, hqa, hqb⟩
      · rw [hcur, deriveCursor_three_final_pending t r q w0 f hr htype hq hqw hf hfw] at hc
        cases hc
        exact ⟨r, f, hr, hf, hfw, by rw [hfa]; exact htop, by rw [hfb]; rfl⟩
    case normal =>
      rw [GoodRound, htype] at hgood
      obtain ⟨hne, hslots, hnall⟩ := hgood
      obtain ⟨i, hfi⟩ : ∃ i, findIndex (fun m => m.winner.isNone && m.a.isSome && m.b.isSome)
          r.matches' = some i := by
        have hdS := deriveCursor_isSome_of_good_normal t r hr htype hslots hnall
        rw [deriveCursor_normal t r hr htype, Option.isSome_map'] at hdS
        exact Option.isSome_iff_exists.mp hdS
      have : t.cursor = some (.norm t.roundIndex i) := by
        rw [hcur, deriveCursor_normal t r hr htype, hfi]
        rfl
      rw [this] at hc
      cases hc
      obtain ⟨m, hmi, hpm⟩ := findIndex_eq_some _ _ i hfi
      simp only [Bool.and_eq_true, Option.isNone_iff_eq_none] at hpm
      exact ⟨r, m, hr, hmi, hpm.1.1, hpm.1.2, hpm.2⟩
  · intro hcs
    obtain ⟨t', hap, _, _, hh⟩ :=
      applyPick_step t s ⟨hlen, r, hr, hcur, hca⟩ (hch hcs) hcs
    exact ⟨t', hap, hh⟩

/-- Witness for C10: a fresh two-entrant tournament, whose cursor
points at the first (and only) normal match. -/
theorem c10_cursor_points_at_pending_match_witness :
    (buildTournament [some ⟨"a", 2⟩, some ⟨"b", 1⟩]).cursor = some (.norm 0 0) ∧
    ((buildTournament [some ⟨"a", 2⟩, some ⟨"b", 1⟩]).cursor
        = deriveCursor (buildTournament [some ⟨"a", 2⟩, some ⟨"b", 1⟩]) ∧
      (∀ c, (buildTournament [some ⟨"a", 2⟩, some ⟨"b", 1⟩]).cursor = some c →
        ∃ r m, (buildTournament [some ⟨"a", 2⟩, some ⟨"b", 1⟩]).rounds[
            (buildTournament [some ⟨"a", 2⟩, some ⟨"b", 1⟩]).roundIndex]? = some r ∧
          cursorMatchOf r c = some m ∧ m.winner = none ∧ m.a.isSome ∧ m.b.isSome) ∧
      ((buildTournament [some ⟨"a", 2⟩, some ⟨"b", 1⟩]).cursor.isSome →
        ∃ t', applyPick (buildTournament [some ⟨"a", 2⟩, some ⟨"b", 1⟩]) Side.a = some t' ∧
          t'.history.length
            = (buildTournament [some ⟨"a", 2⟩, some ⟨"b", 1⟩]).history.length + 1)) :=
  ⟨by decide,
    c10_cursor_points_at_pending_match _ Side.a (Reachable.build _)⟩

/-! ## Termination with exactly `n − 1` decisions (C1) -/

theorem runPicks_champion (k : Nat) : ∀ (sides : List Side), sides.length = k →
    ∀ t, Inv t → tAlive t = k + 1 →
      ∃ t', runPicks t sides = some t' ∧ t'.champion.isSome ∧
        t'.history.length = t.history.length + k := by
  induction k with
  | zero =>
    intro sides hk t hinv halive
    cases sides with
    | nil => exact ⟨t, rfl, (inv_champion_iff_alive t hinv).mpr halive, by omega⟩
    | cons x xs => simp at hk
  | succ n ih =>
    intro sides hk t hinv halive
    cases sides with
    | nil => simp at hk
    | cons sd ss =>
      have hch : t.champion = none := by
        cases hc : t.champion with
        | none => rfl
        | some e =>
          have := (inv_champion_iff_alive t hinv).mp (by rw [hc]; rfl)
          omega
      have hcs : t.cursor.isSome := by
        obtain ⟨_, r, hr, hcur, hca⟩ := hinv
        rcases hca with ⟨c, hchs, _, _⟩ | ⟨_, hgood⟩
        · rw [hchs] at hch
          cases hch
        · cases htype : r.type
          case done =>
            rw [GoodRound, htype] at hgood
            have h0 : tAlive t = 0 := by
              rw [tAlive_of_active t r hr, roundAlive_done r htype, hgood]
              rfl
            omega
          case normal =>
            rw [GoodRound, htype] at hgood
            rw [hcur]
            exact deriveCursor_isSome_of_good_normal t r hr htype hgood.2.1 hgood.2.2
          case three =>
            rw [hcur]
            exact deriveCursor_isSome_of_good_three t r hr htype hgood
      obtain ⟨t1, hap, hinv1, halive1, hh1⟩ := applyPick_step t sd hinv hch hcs
      have hk' : ss.length = n := by simpa using hk
      obtain ⟨t', hrun, hch', hh'⟩ := ih ss hk' t1 hinv1 (by omega)
      refine ⟨t', ?_, hch', by omega⟩
      simp only [runPicks, hap]
      exact hrun

/-- Claim C1: From any non-empty list of present entrants, any sequence
of `entrants.length − 1` picks (each applied by `applyPick` at the
current cursor, with an arbitrary side each time) runs to completion:
no pick is rejected, the final snapshot has a (single, non-null)
champion, and exactly `entrants.length − 1` decisions were applied —
which in particular satisfies the claimed bound of
`entrants.length − 1` plus one extra decision per three-entrant stage. -/
theorem c1_terminates_with_champion (l : List Entrant) (sides : List Side) (hne : l ≠ [])
    (hsides : sides.length = l.length - 1) :
    ∃ t', runPicks (buildTournament (l.map some)) sides = some t' ∧
      t'.champion.isSome ∧ t'.history.length = l.length - 1 := by
  obtain ⟨hinv, halive, hhist⟩ := buildTournament_inv (l.map some)
  rw [filterMap_map_some l] at halive
  have hlen1 : 1 ≤ l.length := by
    cases l with
    | nil => exact absurd rfl hne
    | cons x xs => simp
  obtain ⟨t', hrun, hch, hh⟩ := runPicks_champion (l.length - 1) sides hsides _ hinv
    (by omega)
  refine ⟨t', hrun, hch, ?_⟩
  rw [hh, hhist]
  simp

/-- Witness for C1: two entrants, one pick, champion reached with
exactly one decision in the history. -/
theorem c1_terminates_with_champion_witness :
    (([⟨"a", 3⟩, ⟨"b", 2⟩] : List Entrant) ≠ [] ∧
      ([Side.a] : List Side).length = ([⟨"a", 3⟩, ⟨"b", 2⟩] : List Entrant).length - 1) ∧
    (∃ t', runPicks (buildTournament (([⟨"a", 3⟩, ⟨"b", 2⟩] : List Entrant).map some))
        [Side.a] = some t' ∧
      t'.champion.isSome ∧
      t'.history.length = ([⟨"a", 3⟩, ⟨"b", 2⟩] : List Entrant).length - 1) :=
  ⟨⟨by decide, by decide⟩,
    c1_terminates_with_champion [⟨"a", 3⟩, ⟨"b", 2⟩] [Side.a] (by decide) (by decide)⟩

end Knockout
